import Mathlib

/-!
Verification of the svg-slicer geometric pipeline (src/svg_slicer).

The pipeline is embedded shallowly: coordinates are exact rationals, the
Shapely geometry library is abstracted as a record of operations
(`GeomOps`), and every repository function under verification is
translated directly from `cli.py`, `infill.py`, `gcode.py` and
`svg_parser.py`.  Python `float` arithmetic is modelled by exact `ℚ`
arithmetic; `math.hypot` and `math.sqrt` are irrational on `ℚ` and are
therefore fields of `GeomOps`.  Concrete instantiations of `GeomOps`
used to evaluate the development on explicit inputs appear at the end of
the definition section.
-/

/-- A planar point, Python `tuple[float, float]`. -/
abbrev Pt : Type := ℚ × ℚ

/-- An ordered point sequence, Python `List[Point]`. -/
abbrev Polyline : Type := List Pt

/-- A Shapely `Polygon`: one exterior ring plus hole rings, each a closed
coordinate sequence. -/
structure PolyG where
  exterior : List Pt
  interiors : List (List Pt)

/-- The closed enumeration of Shapely geometry types that reach the core
(`Empty, Point, MultiPoint, LineString, MultiLineString, Polygon,
MultiPolygon, GeometryCollection`). -/
inductive Geometry where
  | empty : Geometry
  | point (p : Pt) : Geometry
  | multipoint (ps : List Pt) : Geometry
  | line (coords : List Pt) : Geometry
  | multiline (ls : List (List Pt)) : Geometry
  | poly (p : PolyG) : Geometry
  | multipoly (ps : List PolyG) : Geometry
  | collection (gs : List Geometry) : Geometry

mutual

/-- Shapely `geometry.is_empty`: structural emptiness (a collection is
empty when all its parts are). -/
def Geometry.isEmptyG : Geometry → Bool
  | .empty => true
  | .point _ => false
  | .multipoint ps => ps.isEmpty
  | .line cs => cs.isEmpty
  | .multiline ls => ls.isEmpty
  | .poly p => p.exterior.isEmpty
  | .multipoly ps => ps.isEmpty
  | .collection gs => Geometry.isEmptyGList gs

/-- Conjunction of `isEmptyG` over a part list. -/
def Geometry.isEmptyGList : List Geometry → Bool
  | [] => true
  | g :: gs => Geometry.isEmptyG g && Geometry.isEmptyGList gs

end

mutual

/-- A computable structural size for `Geometry`, used as recursion fuel
for the collection-flattening recursion below. -/
def Geometry.gsize : Geometry → ℕ
  | .collection gs => 1 + Geometry.gsizeList gs
  | _ => 1

/-- Summed `gsize` over a part list. -/
def Geometry.gsizeList : List Geometry → ℕ
  | [] => 0
  | g :: gs => Geometry.gsize g + Geometry.gsizeList gs

end

/-- Geometry produced by intersecting an areal geometry with a straight
sweep line: at most one-dimensional, so never a `MultiPolygon`.  This is
the Shapely contract for `polygon.intersection(line)`; the
`_collect_segments` branch that raises `TypeError` on a `MultiPolygon`
is therefore unreachable from `generate_rectilinear_infill` and has no
constructor here. -/
inductive SegGeom where
  | empty : SegGeom
  | point (p : Pt) : SegGeom
  | multipoint (ps : List Pt) : SegGeom
  | line (coords : List Pt) : SegGeom
  | multiline (ls : List (List Pt)) : SegGeom
  | poly (p : PolyG) : SegGeom
  | collection (gs : List SegGeom) : SegGeom

mutual

/-- Structural emptiness for intersection results. -/
def SegGeom.isEmptyS : SegGeom → Bool
  | .empty => true
  | .point _ => false
  | .multipoint ps => ps.isEmpty
  | .line cs => cs.isEmpty
  | .multiline ls => ls.isEmpty
  | .poly p => p.exterior.isEmpty
  | .collection gs => SegGeom.isEmptySList gs

/-- Conjunction of `isEmptyS` over a part list. -/
def SegGeom.isEmptySList : List SegGeom → Bool
  | [] => true
  | g :: gs => SegGeom.isEmptyS g && SegGeom.isEmptySList gs

end

/-- The abstract capability contract for the external 2D geometry
library (Shapely), per spec section 9: validity testing and repair,
signed offsetting, boolean operations, affine transforms, metric
queries, and the real-valued functions `math.hypot` and `math.sqrt`.
The embedded repository code is parametric in these operations. -/
structure GeomOps where
  isValid : Geometry → Bool
  makeValid : Geometry → Geometry
  buffer : Geometry → ℚ → Geometry
  simplify : List Pt → ℚ → List Pt
  area : Geometry → ℚ
  intersectLine : Geometry → Pt → Pt → SegGeom
  rotateG : Geometry → ℚ → Pt → Geometry
  rotateLine : List Pt → ℚ → Pt → List Pt
  centroid : Geometry → Pt
  boundsG : Geometry → ℚ × ℚ × ℚ × ℚ
  minRotRectExterior : Geometry → List Pt
  hypot : ℚ → ℚ → ℚ
  sqrtQ : ℚ → ℚ
  project : List Pt → Pt → ℚ
  interpolate : List Pt → ℚ → Pt
  substringL : List Pt → ℚ → ℚ → List Pt
  lineLength : List Pt → ℚ
  covers : Geometry → Pt → Pt → Bool
  unionG : Geometry → Geometry → Geometry
  translateG : Geometry → ℚ → ℚ → Geometry
  scaleG : Geometry → ℚ → ℚ → Pt → Geometry

/-- cli.py `_clean_geometry`: return unchanged if empty or valid, else
`make_valid`, else a zero-width buffer.  The `try/except` fallbacks fire
only when the library raises, which the abstract operations never do. -/
def clean_geometry (ops : GeomOps) (geometry : Geometry) : Geometry :=
  if geometry.isEmptyG then geometry
  else if ops.isValid geometry then geometry
  else
    let geom := ops.makeValid geometry
    if ops.isValid geom then geom else ops.buffer geom 0

/-- Fueled core of cli.py `_geometry_to_polygons`.  The Python function
recurses into `GeometryCollection` parts, re-cleaning each part; fuel
bounds that recursion (sufficient whenever cleaning does not keep
deepening the nesting, which is the library behaviour). -/
def geometry_to_polygons_fuel (ops : GeomOps) : ℕ → Geometry → List PolyG
  | 0, _ => []
  | Nat.succ fuel, geometry =>
    let g := clean_geometry ops geometry
    if g.isEmptyG then []
    else
      match g with
      | .poly p => [p]
      | .multipoly ps => ps
      | .collection gs => gs.flatMap (geometry_to_polygons_fuel ops fuel)
      | _ => []

/-- cli.py `_geometry_to_polygons`: flatten a (repaired) geometry into a
flat list of polygons; non-areal geometry yields `[]`. -/
def geometry_to_polygons (ops : GeomOps) (geometry : Geometry) : List PolyG :=
  geometry_to_polygons_fuel ops (Nat.succ ((clean_geometry ops geometry).gsize)) geometry

/-- The in-place re-closing step of cli.py `_ring_to_polyline`:
`if simplified_coords[0] != simplified_coords[-1]: append(first)`. -/
def close_ring (coords : Polyline) : Polyline :=
  match coords.head?, coords.getLast? with
  | some h, some l => if h ≠ l then coords ++ [h] else coords
  | _, _ => coords

/-- cli.py `_ring_to_polyline`: simplify a closed ring within
`tolerance`, fall back to the raw coordinates when simplification
collapses below 3 points, and re-close the ring. -/
def ring_to_polyline (ops : GeomOps) (ring : List Pt) (tolerance : ℚ) : Polyline :=
  let coords := ring
  if coords.length < 2 then []
  else
    let simplified := ops.simplify coords (max tolerance 0)
    let simplified_coords := if simplified.length < 3 then coords else simplified
    close_ring simplified_coords

/-- One pass of the loop body of cli.py `_generate_perimeter_loops`
(lines 175-182): emit the simplified exterior ring and every hole ring
of every polygon of the current region, skipping empty polylines. -/
def pass_rings (ops : GeomOps) (current : Geometry) (tolerance : ℚ) : List Polyline :=
  (geometry_to_polygons ops current).flatMap fun poly =>
    let exterior := ring_to_polyline ops poly.exterior tolerance
    (if exterior ≠ [] then [exterior] else []) ++
      poly.interiors.filterMap fun interior_ring =>
        let interior_polyline := ring_to_polyline ops interior_ring tolerance
        if interior_polyline ≠ [] then some interior_polyline else none

/-- The `for _ in range(max_passes)` loop of `_generate_perimeter_loops`:
clean the region, stop when it is empty or has non-positive area, emit
its rings, then shrink inward by `step`. -/
def perimeter_loops_aux (ops : GeomOps) (step tolerance : ℚ) :
    ℕ → Geometry → List Polyline
  | 0, _ => []
  | Nat.succ n, current =>
    let cur := clean_geometry ops current
    if cur.isEmptyG ∨ ops.area cur ≤ 0 then []
    else
      pass_rings ops cur tolerance ++
        perimeter_loops_aux ops step tolerance n (ops.buffer cur (-step))

/-- cli.py `_generate_perimeter_loops`: clamp `step` and `target_width`,
run at most `ceil(target_width / step)` inward offset passes, and keep
the loops with at least 2 points. -/
def generate_perimeter_loops (ops : GeomOps) (polygon : Geometry)
    (step target_width tolerance : ℚ) : List Polyline :=
  let polygon := clean_geometry ops polygon
  let step := max step (1e-6 : ℚ)
  let target_width := max target_width step
  let max_passes := (max 1 ⌈target_width / step⌉).toNat
  (perimeter_loops_aux ops step tolerance max_passes polygon).filter fun loop =>
    2 ≤ loop.length

/-- The general boolean intersection used by `_select_infill_regions`
(`reopened.intersection(polygon)`), a further library capability. -/
structure GeomOpsX extends GeomOps where
  intersectionG : Geometry → Geometry → Geometry

/-- config.py `InfillConfig`. -/
structure InfillConfig where
  base_spacing : ℚ
  min_density : ℚ
  max_density : ℚ
  angles : List ℚ

/-- config.py `SamplingConfig` (the field the core reads). -/
structure SamplingConfig where
  outline_simplify_tolerance : ℚ

/-- Perimeter settings as read by cli.py `_build_toolpaths`.  The
`PerimeterConfig` dataclass in config.py declares only `thickness`,
`density` and `min_fill_width`; `count` and `min_fill_mode` are read by
cli.py lines 210-212 yet declared nowhere in the repository, so those
two fields are modelled from the spec (section 6: perimeter count,
minimum fill mode `min`/`max`). -/
structure PerimeterConfig where
  thickness : ℚ
  density : ℚ
  min_fill_width : ℚ
  count : ℤ
  min_fill_mode : String

/-- config.py `PrinterConfig` (the fields the core reads). -/
structure PrinterConfig where
  x_min : ℚ
  x_max : ℚ
  y_min : ℚ
  y_max : ℚ
  color_mode : Bool
  available_colors : List String

/-- config.py `PrinterConfig.printable_width`. -/
def PrinterConfig.printable_width (p : PrinterConfig) : ℚ := p.x_max - p.x_min

/-- config.py `PrinterConfig.printable_depth`. -/
def PrinterConfig.printable_depth (p : PrinterConfig) : ℚ := p.y_max - p.y_min

/-- config.py `SlicerConfig` (the sections the core reads). -/
structure SlicerConfig where
  printer : PrinterConfig
  infill : InfillConfig
  perimeter : PerimeterConfig
  sampling : SamplingConfig

/-- cli.py `_brightness_to_density`: map brightness (0 = black,
1 = white) into the configured density range. -/
def brightness_to_density (brightness : ℚ) (config : SlicerConfig) : ℚ :=
  let dynamic_range := config.infill.max_density - config.infill.min_density
  config.infill.min_density + (1 - brightness) * dynamic_range

/-- Python `max` over a list as used on the nonempty edge lists below:
`max(edges)`; the empty case is the `if not edges: return 0.0` guard. -/
def list_max_or_zero : List ℚ → ℚ
  | [] => 0
  | e :: es => es.foldl max e

/-- Python `min` over a list, same shape. -/
def list_min_or_zero : List ℚ → ℚ
  | [] => 0
  | e :: es => es.foldl min e

/-- The consecutive-edge lengths of a coordinate ring:
`LineString([coords[i], coords[i+1]]).length` for each `i`, which for a
two-point segment is the Euclidean distance `hypot`. -/
def edge_lengths (ops : GeomOps) (coords : List Pt) : List ℚ :=
  (coords.zip coords.tail).map fun ab => ops.hypot (ab.2.1 - ab.1.1) (ab.2.2 - ab.1.2)

/-- cli.py `_max_dimension`: longest edge of the minimum rotated
bounding rectangle. -/
def max_dimension (ops : GeomOps) (polygon : Geometry) : ℚ :=
  if polygon.isEmptyG then 0
  else
    let coords := ops.minRotRectExterior polygon
    if coords.length < 2 then 0
    else list_max_or_zero (edge_lengths ops coords)

/-- cli.py `_min_dimension`: shortest edge of the minimum rotated
bounding rectangle. -/
def min_dimension (ops : GeomOps) (polygon : Geometry) : ℚ :=
  if polygon.isEmptyG then 0
  else
    let coords := ops.minRotRectExterior polygon
    if coords.length < 2 then 0
    else list_min_or_zero (edge_lengths ops coords)

/-- cli.py `_fill_dimension`. -/
def fill_dimension (ops : GeomOps) (polygon : Geometry) (mode : String) : ℚ :=
  if mode = "max" then max_dimension ops polygon else min_dimension ops polygon

/-- cli.py `_select_infill_regions`: repair, then by mode either return
the full decomposition (`min_fill_width ≤ 0`), keep-or-discard the whole
polygon (`"max"`), or apply a morphological opening intersected with the
original (`"min"` and fallback). -/
def select_infill_regions (ops : GeomOpsX) (polygon : Geometry)
    (min_fill_width : ℚ) (min_fill_mode : String) : List Geometry :=
  let polygon := clean_geometry ops.toGeomOps polygon
  if polygon.isEmptyG then []
  else if min_fill_width ≤ 0 then
    (geometry_to_polygons ops.toGeomOps polygon).map Geometry.poly
  else if min_fill_mode = "max" then
    if fill_dimension ops.toGeomOps polygon min_fill_mode ≥ min_fill_width then [polygon]
    else []
  else
    let radius := max (min_fill_width / 2) (1e-6 : ℚ)
    let eroded := clean_geometry ops.toGeomOps (ops.buffer polygon (-radius))
    if eroded.isEmptyG then []
    else
      let reopened := clean_geometry ops.toGeomOps (ops.buffer eroded radius)
      let clipped := clean_geometry ops.toGeomOps (ops.intersectionG reopened polygon)
      ((geometry_to_polygons ops.toGeomOps clipped).filter fun part =>
        ¬ part.exterior.isEmpty ∧ 0 < ops.area (Geometry.poly part)).map Geometry.poly

/-- The interior-region computation of cli.py `_build_toolpaths` lines
240-272 for one filled polygon: with positive perimeter width, erode the
polygon by `perimeter_width * max(perimeter_count - 1, 0)` and repair;
the gate `if interior_geom and not interior_geom.is_empty` then passes
the region to infill selection only when it is non-empty. -/
def interior_region_for_infill (ops : GeomOps) (polygon : Geometry)
    (perimeter_width : ℚ) (perimeter_count : ℤ) : Option Geometry :=
  let interior_geom : Option Geometry :=
    if 0 < perimeter_width then
      let interior_offset := perimeter_width * ((max (perimeter_count - 1) 0 : ℤ) : ℚ)
      let interior_candidate := clean_geometry ops (ops.buffer polygon (-interior_offset))
      if interior_candidate.isEmptyG then none else some interior_candidate
    else some polygon
  match interior_geom with
  | some g => if ¬ g.isEmptyG then some g else none
  | none => none

/-- The erosion the spec describes for claim C2, stated from the spec
words alone: the polygon buffered by the negative of
`thickness * (perimeter_count - 1)`. -/
def spec_eroded_interior (ops : GeomOps) (polygon : Geometry)
    (thickness : ℚ) (perimeter_count : ℤ) : Geometry :=
  ops.buffer polygon (-(thickness * ((perimeter_count - 1 : ℤ) : ℚ)))

/-- infill.py `_point_distance` (`math.hypot` of the coordinate
differences); also Shapely `Point.distance` between two points. -/
def point_distance (ops : GeomOps) (a b : Pt) : ℚ :=
  ops.hypot (a.1 - b.1) (a.2 - b.2)

/-- Shapely `polygon.boundary`: the exterior ring alone as a
`LineString`, or a `MultiLineString` of exterior plus holes. -/
def polyg_boundary (p : PolyG) : SegGeom :=
  if p.interiors.isEmpty then SegGeom.line p.exterior
  else SegGeom.multiline (p.exterior :: p.interiors)

mutual

/-- infill.py `_collect_segments`: gather the line strings of an
intersection result.  An empty input yields `[]` before the type
dispatch.  The `Polygon` branch recurses once into the polygon's
boundary, which is a `LineString` or `MultiLineString`; that single
step is unfolded here.  The `TypeError` raise for other types cannot
fire on `SegGeom` (see its doc comment). -/
def collect_segments : SegGeom → List (List Pt)
  | .empty => []
  | .line cs => if SegGeom.isEmptyS (.line cs) then [] else [cs]
  | .multiline ls => if SegGeom.isEmptyS (.multiline ls) then [] else ls
  | .point _ => []
  | .multipoint _ => []
  | .collection gs =>
    if SegGeom.isEmptyS (.collection gs) then [] else collect_segments_list gs
  | .poly p =>
    if SegGeom.isEmptyS (.poly p) then []
    else
      match polyg_boundary p with
      | .line cs => if cs.isEmpty then [] else [cs]
      | .multiline ls => if ls.isEmpty then [] else ls
      | _ => []

/-- Ordered concatenation of `collect_segments` over collection parts
(the Python `for part in geometry.geoms` extension loop). -/
def collect_segments_list : List SegGeom → List (List Pt)
  | [] => []
  | g :: gs => collect_segments g ++ collect_segments_list gs

end

/-- infill.py `_linestring_to_polyline`: coordinate list, or `[]` below
2 points. -/
def linestring_to_polyline (coords : List Pt) : Polyline :=
  if coords.length < 2 then [] else coords

/-- infill.py `_build_perimeter_loops`: the non-empty boundary rings of
the polygon, kept when non-empty with positive length.  A non-`Polygon`
argument would raise `AttributeError` in Python and never occurs; it is
mapped to `[]`. -/
def build_perimeter_loops (ops : GeomOps) (polygon : Geometry) : List (List Pt) :=
  if polygon.isEmptyG then []
  else
    match polygon with
    | .poly p =>
      let loops :=
        (if ¬ p.exterior.isEmpty then [p.exterior] else []) ++
          p.interiors.filter fun interior => ¬ interior.isEmpty
      loops.filter fun loop => ¬ loop.isEmpty ∧ 0 < ops.lineLength loop
    | _ => []

/-- Python `math.isclose(a, b, abs_tol=1e-9)` (the relative tolerance
keeps its default `1e-9`). -/
def isclose (a b : ℚ) : Bool :=
  |a - b| ≤ max ((1e-9 : ℚ) * max |a| |b|) (1e-9 : ℚ)

/-- infill.py `_loop_section`: the sub-polyline of a closed loop between
two arc-length positions, wrapping past the loop start when needed. -/
def loop_section (ops : GeomOps) (loop : List Pt) (start_dist end_dist : ℚ) : Polyline :=
  if loop.isEmpty then []
  else
    let length := ops.lineLength loop
    if length ≤ 0 then []
    else if isclose start_dist end_dist then [ops.interpolate loop start_dist]
    else
      let start_dist := max (min start_dist length) 0
      let end_dist := max (min end_dist length) 0
      let coords :=
        if start_dist ≤ end_dist then ops.substringL loop start_dist end_dist
        else
          let head := ops.substringL loop start_dist length
          let tail := ops.substringL loop 0 end_dist
          if ¬ head.isEmpty then head ++ tail.tail else tail
      if coords.isEmpty then [ops.interpolate loop start_dist, ops.interpolate loop end_dist]
      else coords

/-- The two in-place endpoint assignments `path[0] = start` and
`path[-1] = end` of `_perimeter_glide_path`; on a one-point path the
second assignment overwrites the first. -/
def set_endpoints (path : Polyline) (start stop : Pt) : Polyline :=
  match path with
  | [] => []
  | [_] => [stop]
  | _ :: ps => start :: (ps.dropLast ++ [stop])

/-- The deduplication pass of `_perimeter_glide_path`: keep a point only
when it is more than `1e-9` from the previously kept one.  The
accumulator is kept reversed so its Python `deduped[-1]` is the head. -/
def dedup_path (ops : GeomOps) : Polyline → Polyline
  | [] => []
  | p :: ps =>
    (ps.foldl
      (fun acc point =>
        if (1e-9 : ℚ) < point_distance ops point (acc.headD (0, 0)) then point :: acc
        else acc)
      [p]).reverse

/-- The summed consecutive-point Euclidean length of a polyline, as
computed inline by `_perimeter_glide_path`. -/
def polyline_length (ops : GeomOps) (path : Polyline) : ℚ :=
  ((path.zip path.tail).map fun ab => point_distance ops ab.1 ab.2).sum

/-- infill.py `_perimeter_glide_path`: the shortest loop-hugging
connector between two points that both lie within tolerance of one of
the perimeter loops; `none` models Python `None`.  The running best is
an `Option` pair, its `none` state modelling `best_length = inf`. -/
def perimeter_glide_path (ops : GeomOps) (start stop : Pt)
    (loops : Option (List (List Pt))) (tolerance : ℚ) : Option Polyline :=
  match loops with
  | none => none
  | some loopsL =>
    if loopsL.isEmpty then none
    else
      let check_tolerance := max (tolerance * 2) (1e-6 : ℚ)
      (loopsL.foldl
        (fun best loop =>
          if loop.isEmpty ∨ ops.lineLength loop ≤ 0 then best
          else
            let start_dist := ops.project loop start
            let nearest_start := ops.interpolate loop start_dist
            if check_tolerance < point_distance ops start nearest_start then best
            else
              let end_dist := ops.project loop stop
              let nearest_end := ops.interpolate loop end_dist
              if check_tolerance < point_distance ops stop nearest_end then best
              else
                let forward := loop_section ops loop start_dist end_dist
                let backward := (loop_section ops loop end_dist start_dist).reverse
                [forward, backward].foldl
                  (fun best path =>
                    if path.isEmpty then best
                    else
                      let path := set_endpoints path start stop
                      let deduped := dedup_path ops path
                      if deduped.length < 2 then best
                      else
                        let length_value := polyline_length ops deduped
                        match best with
                        | none => some (deduped, length_value)
                        | some (_, best_length) =>
                          if length_value < best_length - (1e-9 : ℚ) then
                            some (deduped, length_value)
                          else best)
                  best)
        (none : Option (Polyline × ℚ))).map Prod.fst

/-- Python `min(range(len(l)), key=lambda idx: l[idx])`: the first index
attaining the minimum (Python `min` keeps the earliest minimum). -/
def argmin_first (l : List ℚ) : ℕ :=
  match l with
  | [] => 0
  | d0 :: _ =>
    ((l.enum).foldl (fun best p => if p.2 < best.2 then p else best) (0, d0)).1

/-- The `while pending:` loop of infill.py `_merge_boustrophedon`.
Every iteration pops exactly one pending line, so fuel equal to the
initial pending length makes the fuel-exhausted branch unreachable; it
flushes the current run exactly like loop exit.  The current run is
carried together with Python's `last_point` (its final point). -/
def merge_aux (ops : GeomOps) (max_gap : ℚ) (region : Option Geometry)
    (perimeter_loops : Option (List (List Pt))) :
    ℕ → List Polyline → Option (Polyline × Pt) → List Polyline → List Polyline
  | 0, _, cur, merged =>
    (match cur with
     | some (current, _) => merged ++ [current]
     | none => merged)
  | Nat.succ fuel, pending, cur, merged =>
    match pending with
    | [] =>
      (match cur with
       | some (current, _) => merged ++ [current]
       | none => merged)
    | line0 :: pending_rest =>
      match cur with
      | none =>
        merge_aux ops max_gap region perimeter_loops fuel pending_rest
          (some (line0, line0.getLast?.getD (0, 0))) merged
      | some (current, last_point) =>
        let pending := line0 :: pending_rest
        let distances := pending.map fun line =>
          point_distance ops last_point (line.headD (0, 0))
        let next_index := argmin_first distances
        let line := pending.getD next_index []
        let pending1 := pending.eraseIdx next_index
        let distance := distances.getD next_index 0
        if distance ≤ max_gap + (1e-9 : ℚ) then
          let connector_path : Option Polyline :=
            if (1e-9 : ℚ) < distance then
              let cp := perimeter_glide_path ops last_point (line.headD (0, 0))
                perimeter_loops max_gap
              match cp, perimeter_loops, region with
              | none, none, some reg =>
                if ops.covers (ops.buffer reg (1e-9 : ℚ)) last_point (line.headD (0, 0))
                then some [last_point, line.headD (0, 0)]
                else none
              | c, _, _ => c
            else none
          if (1e-9 : ℚ) < distance ∧ connector_path = none then
            merge_aux ops max_gap region perimeter_loops fuel pending1
              (some (line, line.getLast?.getD (0, 0))) (merged ++ [current])
          else
            let current2 := current ++ (connector_path.getD []).tail ++ line.tail
            merge_aux ops max_gap region perimeter_loops fuel pending1
              (some (current2, current2.getLast?.getD (0, 0))) merged
        else
          merge_aux ops max_gap region perimeter_loops fuel pending1
            (some (line, line.getLast?.getD (0, 0))) (merged ++ [current])

/-- infill.py `_merge_boustrophedon`: greedy nearest-start chaining of
scan segments into boustrophedon runs. -/
def merge_boustrophedon (ops : GeomOps) (lines : List Polyline) (max_gap : ℚ)
    (region : Option Geometry) (perimeter_loops : Option (List (List Pt))) :
    List Polyline :=
  let pending := lines.filter fun line => 2 ≤ line.length
  if pending.isEmpty then []
  else merge_aux ops max_gap region perimeter_loops pending.length pending none []

/-- One iteration of the `for polyline in polylines[1:]` loop of
infill.py `_glue_polylines`, acting on the accumulator
`(glued, current)`. -/
def glue_step (ops : GeomOps) (tolerance : ℚ) (region : Option Geometry)
    (perimeter_loops : Option (List (List Pt)))
    (acc : List Polyline × Polyline) (polyline : Polyline) :
    List Polyline × Polyline :=
  let glued := acc.1
  let current := acc.2
  if polyline.length < 2 then (glued, current)
  else
    let start := current.getLast?.getD (0, 0)
    let start_distance0 := point_distance ops start (polyline.headD (0, 0))
    let end_distance := point_distance ops start (polyline.getLast?.getD (0, 0))
    let candidate :=
      if end_distance < start_distance0 then polyline.reverse else polyline
    let start_distance :=
      if end_distance < start_distance0 then end_distance else start_distance0
    if start_distance ≤ tolerance then
      let connector_path : Option Polyline :=
        if (1e-9 : ℚ) < start_distance then
          let cp := perimeter_glide_path ops start (candidate.headD (0, 0))
            perimeter_loops tolerance
          match cp, perimeter_loops, region with
          | none, none, some reg =>
            if ops.covers (ops.buffer reg (1e-9 : ℚ)) start (candidate.headD (0, 0))
            then some [start, candidate.headD (0, 0)]
            else none
          | c, _, _ => c
        else none
      if (1e-9 : ℚ) < start_distance ∧ connector_path = none then
        (glued ++ [current], candidate)
      else
        let current1 :=
          match connector_path with
          | some cp => if 1 < cp.length then current ++ cp.tail else current
          | none => current
        (glued, current1 ++ candidate.tail)
    else (glued ++ [current], candidate)

/-- infill.py `_glue_polylines`: fold the interleaved runs end-to-end,
bridging gaps within tolerance via the perimeter-hugging connector. -/
def glue_polylines (ops : GeomOps) (polylines : List Polyline) (tolerance : ℚ)
    (region : Option Geometry) (perimeter_loops : Option (List (List Pt))) :
    List Polyline :=
  match polylines with
  | [] => []
  | first :: rest =>
    let result := rest.foldl (glue_step ops tolerance region perimeter_loops) ([], first)
    result.1 ++ [result.2]

/-- The first branch of the `_interleave_orientations` selection: with
no current point, the first candidate of the lowest angle index (falling
back to index 0, which cannot occur on a non-empty candidate list). -/
def choose_first_by_angle (candidates : List (ℕ × Polyline)) : ℕ :=
  let angle_idx :=
    match candidates.map Prod.fst with
    | [] => 0
    | a :: as => as.foldl min a
  match candidates.findIdx? fun c => c.1 = angle_idx with
  | some idx => idx
  | none => 0

/-- The nearest-endpoint scan of `_interleave_orientations`: fold over
the enumerated candidates keeping `(best_dist, chosen_index,
chosen_poly, reverse)`; `none` models the initial `best_dist = inf`.
Returns the chosen index and whether to reverse. -/
def choose_nearest (ops : GeomOps) (candidates : List (ℕ × Polyline))
    (current_point : Pt) : ℕ × Bool :=
  let state := (candidates.enum).foldl
    (fun (st : Option ℚ × ℕ × Bool) p =>
      let (best_dist, chosen_index, _rev0) := st
      let idx := p.1
      let poly := p.2.2
      let dist_start := point_distance ops current_point (poly.headD (0, 0))
      let dist_end := point_distance ops current_point (poly.getLast?.getD (0, 0))
      let dist := if dist_end < dist_start then dist_end else dist_start
      let rev := decide (dist_end < dist_start)
      let better : Bool :=
        match best_dist with
        | none => true
        | some bd =>
          decide (dist < bd - (1e-6 : ℚ)) ||
            (decide (|dist - bd| ≤ (1e-6 : ℚ)) && decide (idx < chosen_index))
      if better then (some dist, idx, rev) else st)
    ((none : Option ℚ), 0, false)
  (state.2.1, state.2.2)

/-- The `while candidates:` loop of `_interleave_orientations`.  Every
iteration pops exactly one candidate, so fuel equal to the candidate
count makes the fuel-exhausted branch unreachable. -/
def interleave_aux (ops : GeomOps) :
    ℕ → List (ℕ × Polyline) → Option Pt → List Polyline
  | 0, _, _ => []
  | Nat.succ fuel, candidates, current_point =>
    if candidates.isEmpty then []
    else
      let chosen :=
        match current_point with
        | none => (choose_first_by_angle candidates, false)
        | some cp => choose_nearest ops candidates cp
      let polyline0 := (candidates.getD chosen.1 (0, [])).2
      let polyline := if chosen.2 then polyline0.reverse else polyline0
      polyline ::
        interleave_aux ops fuel (candidates.eraseIdx chosen.1)
          (some (polyline.getLast?.getD (0, 0)))

/-- infill.py `_interleave_orientations`: flatten the per-angle runs
(keeping only those with at least 2 points, tagged with their angle
index) and greedily chain them from the nearest endpoint. -/
def interleave_orientations (ops : GeomOps)
    (angle_polylines : List (List Polyline)) : List Polyline :=
  let candidates := (angle_polylines.enum).flatMap fun ap =>
    ap.2.filterMap fun polyline =>
      if 2 ≤ polyline.length then some (ap.1, polyline) else none
  if candidates.isEmpty then []
  else interleave_aux ops candidates.length candidates none

/-- The `while current_y <= stop:` sweep of
`generate_rectilinear_infill`, advancing by `spacing` each iteration.
The fuel passed by the caller covers the loop whenever `spacing > 0`,
which holds for every reachable call. -/
def sweep_positions (stop spacing : ℚ) : ℕ → ℚ → List ℚ
  | 0, _ => []
  | Nat.succ fuel, current_y =>
    if current_y ≤ stop then
      current_y :: sweep_positions stop spacing fuel (current_y + spacing)
    else []

/-- infill.py `generate_rectilinear_infill`: reject empty or zero-area
input and non-positive clamped density; then for each configured angle
sweep scan lines across the rotated polygon, rotate the clipped
segments back, alternate directions into a boustrophedon order, merge
each angle pass, interleave the passes and glue the result. -/
def generate_rectilinear_infill (ops : GeomOps) (polygon : Geometry)
    (density : ℚ) (config : InfillConfig) : List Polyline :=
  if polygon.isEmptyG ∨ ops.area polygon ≤ 0 then []
  else
    let density := max config.min_density (min config.max_density density)
    if density ≤ 0 then []
    else
      let base_spacing := max config.base_spacing (1e-2 : ℚ)
      let spacing := base_spacing / max density (1e-3 : ℚ)
      let b := ops.boundsG polygon
      let length_margin := ops.hypot (b.2.2.1 - b.1) (b.2.2.2 - b.2.1) + spacing
      let origin := ops.centroid polygon
      let merge_tolerance :=
        max (min (spacing * (1/4)) (config.base_spacing * (1/4))) (1e-4 : ℚ)
      let perimeter_loops := build_perimeter_loops ops polygon
      let angle_paths := (config.angles.enum).map fun ia =>
        let index := ia.1
        let angle := ia.2
        let rotated := ops.rotateG polygon (-angle) origin
        let rb := ops.boundsG rotated
        let min_rx := rb.1
        let min_ry := rb.2.1
        let max_rx := rb.2.2.1
        let max_ry := rb.2.2.2
        let start := min_ry - spacing
        let stop := max_ry + spacing
        let ys := sweep_positions stop spacing
          ((⌈(stop - start) / spacing⌉).toNat + 1) start
        let pass_toolpaths := ys.flatMap fun current_y =>
          let clipped := ops.intersectLine rotated
            (min_rx - length_margin, current_y) (max_rx + length_margin, current_y)
          (collect_segments clipped).filterMap fun segment =>
            let polyline := linestring_to_polyline segment
            if polyline.isEmpty then none
            else some (linestring_to_polyline (ops.rotateLine polyline angle origin))
        let alternating := (pass_toolpaths.enum).map fun ip =>
          if ip.1 % 2 = 1 then ip.2.reverse else ip.2
        let alternating := if index % 2 = 1 then alternating.reverse else alternating
        let merged := merge_boustrophedon ops alternating merge_tolerance
          (some polygon) (some perimeter_loops)
        merged.filter fun poly => ¬ poly.isEmpty
      let merged_paths := interleave_orientations ops angle_paths
      glue_polylines ops merged_paths merge_tolerance (some polygon) (some perimeter_loops)

/-- gcode.py `Toolpath`: a tagged polyline carrying color metadata.
`assigned_color` is the only field mutated after construction. -/
structure Toolpath where
  points : List Pt
  tag : String
  source_color : Option (ℕ × ℕ × ℕ)
  assigned_color : Option String
  brightness : Option ℚ
deriving DecidableEq

/-- gcode.py `toolpaths_from_polylines`: wrap each polyline with at
least 2 points into a `Toolpath`; shorter polylines are dropped. -/
def toolpaths_from_polylines (polylines : List Polyline) (tag : String)
    (source_color : Option (ℕ × ℕ × ℕ)) (brightness : Option ℚ) : List Toolpath :=
  (polylines.filter fun polyline => 2 ≤ polyline.length).map fun polyline =>
    { points := polyline, tag := tag, source_color := source_color,
      assigned_color := none, brightness := brightness }

/-- svg_parser.py `ShapeGeometry`. -/
structure ShapeGeometry where
  geometry : Geometry
  brightness : ℚ
  stroke_width : Option ℚ
  color : Option (ℕ × ℕ × ℕ)

/-- svg_parser.py `_shoelace_area`: twice the signed area summed over
consecutive point pairs, halved. -/
def shoelace_area (points : List Pt) : ℚ :=
  ((points.zip points.tail).map fun ab => ab.1.1 * ab.2.2 - ab.2.1 * ab.1.2).sum / 2

/-- cli.py `_build_stroke_toolpaths`: perimeter loops with
`step = perimeter thickness` and `target_width = stroke width`, tagged
`outline`. -/
def build_stroke_toolpaths (ops : GeomOps) (shape : ShapeGeometry)
    (config : SlicerConfig) : List Toolpath :=
  match shape.stroke_width with
  | none => []
  | some stroke_width =>
    let loops := generate_perimeter_loops ops shape.geometry
      config.perimeter.thickness stroke_width config.sampling.outline_simplify_tolerance
    toolpaths_from_polylines loops "outline" shape.color (some shape.brightness)

/-- cli.py `_build_toolpaths`: per shape, either stroke outlines, or
per decomposed polygon the perimeter loops followed by infill of each
selected region of the eroded interior. -/
def build_toolpaths (ops : GeomOpsX) (shapes : List ShapeGeometry)
    (config : SlicerConfig) : List Toolpath :=
  let perimeter_width := max config.perimeter.thickness 0
  let perimeter_count := max config.perimeter.count 1
  let min_fill_width := max config.perimeter.min_fill_width 0
  let mode0 := config.perimeter.min_fill_mode.trim.toLower
  let min_fill_mode := if mode0 = "min" ∨ mode0 = "max" then mode0 else "min"
  shapes.flatMap fun shape =>
    if shape.stroke_width.isSome then build_stroke_toolpaths ops.toGeomOps shape config
    else
      let geometry := shape.geometry
      if geometry.isEmptyG then []
      else
        let polygons := geometry_to_polygons ops.toGeomOps geometry
        let density := brightness_to_density shape.brightness config
        polygons.flatMap fun polygon0 =>
          let polygon := clean_geometry ops.toGeomOps (Geometry.poly polygon0)
          (if 0 < perimeter_width then
            let perimeter_target_width := perimeter_width * (perimeter_count : ℚ)
            let loops := generate_perimeter_loops ops.toGeomOps polygon
              perimeter_width perimeter_target_width config.sampling.outline_simplify_tolerance
            toolpaths_from_polylines loops "outline" shape.color (some shape.brightness)
          else []) ++
            match interior_region_for_infill ops.toGeomOps polygon perimeter_width perimeter_count with
            | none => []
            | some interior_geom0 =>
              let interior_geom := clean_geometry ops.toGeomOps interior_geom0
              (geometry_to_polygons ops.toGeomOps interior_geom).flatMap fun infill_poly0 =>
                let infill_poly := clean_geometry ops.toGeomOps (Geometry.poly infill_poly0)
                (select_infill_regions ops infill_poly min_fill_width min_fill_mode).flatMap
                  fun fill_region =>
                    toolpaths_from_polylines
                      (generate_rectilinear_infill ops.toGeomOps fill_region density config.infill)
                      "infill" shape.color (some shape.brightness)

/-- svg_parser.py `fit_shapes_to_bed`: union all shape geometries,
raise (`Except.error`) when the combined bounds have zero width or
height, otherwise translate and scale every shape into the printable
area. -/
def fit_shapes_to_bed (ops : GeomOps) (shapes : List ShapeGeometry)
    (printer : PrinterConfig) : Except String (List ShapeGeometry × ℚ) :=
  match shapes with
  | [] => Except.ok ([], 1)
  | s0 :: rest =>
    let combined := rest.foldl (fun acc shape => ops.unionG acc shape.geometry) s0.geometry
    let b := ops.boundsG combined
    let width := b.2.2.1 - b.1
    let height := b.2.2.2 - b.2.1
    if width = 0 ∨ height = 0 then
      Except.error "SVG has zero width or height after parsing; cannot scale."
    else
      let scale_factor :=
        min (printer.printable_width / width) (printer.printable_depth / height)
      let translated := shapes.map fun shape =>
        let geom := ops.translateG shape.geometry (-b.1) (-b.2.1)
        let geom := ops.scaleG geom scale_factor scale_factor (0, 0)
        let geom := ops.scaleG geom 1 (-1) (0, 0)
        let scaled_height := height * scale_factor
        let geom := ops.translateG geom printer.x_min (printer.y_min + scaled_height)
        { shape with
            geometry := geom
            stroke_width := shape.stroke_width.map fun sw => sw * scale_factor }
      Except.ok (translated, scale_factor)

/-- cli.py `generate_toolpaths_for_shapes`: error on empty input,
optionally fit to bed (propagating its error), build toolpaths, error
when none were generated. -/
def generate_toolpaths_for_shapes (ops : GeomOpsX) (shapes : List ShapeGeometry)
    (config : SlicerConfig) (fit_to_bed : Bool) : Except String (List Toolpath × ℚ) :=
  match shapes with
  | [] => Except.error "No drawable shapes with fills were found in the SVG."
  | _ =>
    match (if fit_to_bed then fit_shapes_to_bed ops.toGeomOps shapes config.printer
           else Except.ok (shapes, 1)) with
    | Except.error e => Except.error e
    | Except.ok fitted =>
      let toolpaths := build_toolpaths ops fitted.1 config
      if toolpaths.isEmpty then Except.error "No toolpaths were generated from the SVG."
      else Except.ok (toolpaths, fitted.2)

/-- One hexadecimal digit, the domain of Python `int(c, 16)` restricted
to plain digits (configuration palette entries are normalized
`#RRGGBB`). -/
def hex_digit (c : Char) : Option ℕ :=
  if '0' ≤ c ∧ c ≤ '9' then some (c.toNat - '0'.toNat)
  else if 'a' ≤ c ∧ c ≤ 'f' then some (c.toNat - 'a'.toNat + 10)
  else if 'A' ≤ c ∧ c ≤ 'F' then some (c.toNat - 'A'.toNat + 10)
  else none

/-- Python `int(value[i:i+2], 16)` on a two-character slice: slices may
come up short at the end of the string; the empty slice raises
(`none`). -/
def parse_hex_byte : List Char → Option ℕ
  | [c1, c2] => do
    let d1 ← hex_digit c1
    let d2 ← hex_digit c2
    pure (16 * d1 + d2)
  | [c1] => hex_digit c1
  | _ => none

/-- cli.py `_hex_to_rgb`: strip leading `#` characters and parse three
byte pairs; `none` models the `ValueError` on malformed input. -/
def hex_to_rgb (color : String) : Option (ℕ × ℕ × ℕ) :=
  let value := color.toList.dropWhile fun c => c = '#'
  do
    let r ← parse_hex_byte (value.take 2)
    let g ← parse_hex_byte ((value.drop 2).take 2)
    let b ← parse_hex_byte ((value.drop 4).take 2)
    pure (r, g, b)

/-- cli.py `_color_distance`: Euclidean RGB distance via `math.sqrt`. -/
def color_distance (ops : GeomOps) (a b : ℕ × ℕ × ℕ) : ℚ :=
  let dr : ℚ := (a.1 : ℚ) - (b.1 : ℚ)
  let dg : ℚ := (a.2.1 : ℚ) - (b.2.1 : ℚ)
  let db : ℚ := (a.2.2 : ℚ) - (b.2.2 : ℚ)
  ops.sqrtQ (dr * dr + dg * dg + db * db)

/-- cli.py `_GRAY_SATURATION_THRESHOLD = 0.08`. -/
def gray_saturation_threshold : ℚ := 8 / 100

/-- cli.py `_rgb_brightness`. -/
def rgb_brightness (rgb : ℕ × ℕ × ℕ) : ℚ :=
  ((299 / 1000 : ℚ) * rgb.1 + (587 / 1000 : ℚ) * rgb.2.1 + (114 / 1000 : ℚ) * rgb.2.2) / 255

/-- cli.py `_rgb_saturation`. -/
def rgb_saturation (rgb : ℕ × ℕ × ℕ) : ℚ :=
  let maxc := max rgb.1 (max rgb.2.1 rgb.2.2)
  let minc := min rgb.1 (min rgb.2.1 rgb.2.2)
  if maxc = 0 then 0 else ((maxc : ℚ) - (minc : ℚ)) / (maxc : ℚ)

/-- A Python `dict` keyed by strings: insertion-ordered association
list; inserting an existing key updates the value in place. -/
def dict_insert {α : Type} (l : List (String × α)) (k : String) (v : α) :
    List (String × α) :=
  if l.any fun kv => kv.1 = k then
    l.map fun kv => if kv.1 = k then (k, v) else kv
  else l ++ [(k, v)]

/-- Python `dict` lookup (`d[k]` / `d.get(k)`). -/
def dict_get {α : Type} (l : List (String × α)) (k : String) : Option α :=
  (l.find? fun kv => kv.1 = k).map fun kv => kv.2

/-- The dict comprehension `{color: _hex_to_rgb(color) for color in
palette}`; `none` models the `ValueError` from a malformed entry. -/
def palette_rgb_dict (palette : List String) :
    Option (List (String × (ℕ × ℕ × ℕ))) :=
  palette.foldlM (fun d color => (hex_to_rgb color).map fun rgb => dict_insert d color rgb) []

/-- The dict comprehension `{color: index for index, color in
enumerate(palette)}`: first-occurrence position, last index value. -/
def palette_order_dict (palette : List String) : List (String × ℕ) :=
  (palette.enum).foldl (fun d ic => dict_insert d ic.2 ic.1) []

/-- `palette_order.get(color, math.inf)` as the second component of the
Python comparison keys; `⊤` models infinity. -/
def order_key (palette_order : List (String × ℕ)) (color : String) : WithTop ℕ :=
  match dict_get palette_order color with
  | some i => (i : WithTop ℕ)
  | none => ⊤

/-- Strict lexicographic comparison of the Python key tuples
`(float, index-or-inf)`. -/
def key_lt (a b : ℚ × WithTop ℕ) : Prop :=
  a.1 < b.1 ∨ (a.1 = b.1 ∧ a.2 < b.2)

instance key_lt_dec : ∀ a b, Decidable (key_lt a b) := fun a b => by
  unfold key_lt
  infer_instance

/-- Non-strict lexicographic comparison of the Python key tuples. -/
def key_le (a b : ℚ × WithTop ℕ) : Prop :=
  a.1 < b.1 ∨ (a.1 = b.1 ∧ a.2 ≤ b.2)

instance key_le_dec : ∀ a b, Decidable (key_le a b) := fun a b => by
  unfold key_le
  infer_instance

/-- Python `min(l, key=key)`: the first element attaining the minimal
key (empty input raises in Python and cannot occur at the call sites;
it is mapped to `""`). -/
def py_min_by (l : List String) (key : String → ℚ × WithTop ℕ) : String :=
  match l with
  | [] => ""
  | a :: as => as.foldl (fun best c => if key_lt (key c) (key best) then c else best) a

/-- Python `sorted(l, key=key)`.  Python sorts stably; every call site
below has pairwise-distinct keys (each key carries the color's unique
palette index), so a stable sort and any other sort agreeing with the
lexicographic order coincide. -/
def py_sorted (l : List String) (key : String → ℚ × WithTop ℕ) : List String :=
  List.insertionSort (fun a b => key_le (key a) (key b)) l

/-- cli.py `_find_closest_palette_color`: near-gray sources restrict to
the grayscale palette entries by brightness difference; otherwise the
nearest palette entry in RGB distance; ties break on palette order. -/
def find_closest_palette_color (ops : GeomOps) (source : ℕ × ℕ × ℕ)
    (palette : List String) (palette_rgb : List (String × (ℕ × ℕ × ℕ)))
    (palette_order : List (String × ℕ)) (grayscale_palette : List String)
    (palette_brightness : List (String × ℚ)) : String :=
  let source_sat := rgb_saturation source
  let source_brightness := rgb_brightness source
  if ¬ grayscale_palette.isEmpty ∧ source_sat ≤ gray_saturation_threshold then
    py_min_by grayscale_palette fun color =>
      (|source_brightness - (dict_get palette_brightness color).getD 0|,
        order_key palette_order color)
  else
    py_min_by palette fun color =>
      (color_distance ops source ((dict_get palette_rgb color).getD (0, 0, 0)),
        order_key palette_order color)

/-- cli.py `_toolpath_length`: summed consecutive-point `math.hypot`
distances. -/
def toolpath_length (ops : GeomOps) (toolpath : Toolpath) : ℚ :=
  ((toolpath.points.zip toolpath.points.tail).map fun ab =>
    point_distance ops ab.1 ab.2).sum

/-- cli.py `ColorPlan`. -/
structure ColorPlan where
  ordered_colors : List String
  groups : List (String × List Toolpath)
  usage_by_color : List (String × ℚ)
deriving DecidableEq

/-- The dict comprehension for `palette_brightness` in
`_plan_color_sequence`. -/
def plan_palette_brightness (palette_rgb : List (String × (ℕ × ℕ × ℕ))) :
    List (String × ℚ) :=
  palette_rgb.map fun kv => (kv.1, rgb_brightness kv.2)

/-- The `grayscale_palette` list comprehension of `_plan_color_sequence`
(composed with its `palette_saturation` dict comprehension). -/
def plan_grayscale (palette_rgb : List (String × (ℕ × ℕ × ℕ))) : List String :=
  ((palette_rgb.map fun kv => (kv.1, rgb_saturation kv.2)).filter fun kv =>
    kv.2 ≤ gray_saturation_threshold).map Prod.fst

/-- The color `_plan_color_sequence` assigns to one toolpath: its
source color (black when absent) matched against the palette. -/
def plan_assign (ops : GeomOps) (palette : List String)
    (palette_rgb : List (String × (ℕ × ℕ × ℕ))) (toolpath : Toolpath) : String :=
  find_closest_palette_color ops (toolpath.source_color.getD (0, 0, 0)) palette
    palette_rgb (palette_order_dict palette) (plan_grayscale palette_rgb)
    (plan_palette_brightness palette_rgb)

/-- One iteration of the `for toolpath in toolpaths` loop of
`_plan_color_sequence`, acting on `(updated, color_groups, usage)`. -/
def plan_step (ops : GeomOps) (palette : List String)
    (palette_rgb : List (String × (ℕ × ℕ × ℕ)))
    (st : List Toolpath × List (String × List Toolpath) × List (String × ℚ))
    (toolpath : Toolpath) :
    List Toolpath × List (String × List Toolpath) × List (String × ℚ) :=
  let updated := st.1
  let color_groups := st.2.1
  let usage := st.2.2
  let best_color := plan_assign ops palette palette_rgb toolpath
  let tp := { toolpath with assigned_color := some best_color }
  let color_groups1 :=
    match dict_get color_groups best_color with
    | some group => dict_insert color_groups best_color (group ++ [tp])
    | none => color_groups ++ [(best_color, [tp])]
  let usage1 := dict_insert usage best_color
    ((dict_get usage best_color).getD 0 + toolpath_length ops tp)
  (updated ++ [tp], color_groups1, usage1)

/-- cli.py `_plan_color_sequence`.  Python mutates each toolpath's
`assigned_color` in place; the embedding returns the updated toolpath
list alongside the optional plan.  The outer `Option` models the
`ValueError` a malformed palette entry would raise. -/
def plan_color_sequence (ops : GeomOps) (toolpaths : List Toolpath)
    (config : SlicerConfig) : Option (Option ColorPlan × List Toolpath) :=
  let printer := config.printer
  if ¬ printer.color_mode ∨ printer.available_colors.isEmpty then some (none, toolpaths)
  else
    let palette := printer.available_colors
    match palette_rgb_dict palette with
    | none => none
    | some palette_rgb =>
      let st := toolpaths.foldl (plan_step ops palette palette_rgb) ([], [], [])
      let updated := st.1
      let color_groups := st.2.1
      let usage := st.2.2
      if color_groups.isEmpty then some (none, updated)
      else
        let ordered_colors := py_sorted (color_groups.map Prod.fst) fun color =>
          ((dict_get usage color).getD 0, order_key (palette_order_dict palette) color)
        let groups := ordered_colors.map fun color =>
          (color, (dict_get color_groups color).getD [])
        some (some (ColorPlan.mk ordered_colors groups usage), updated)

mutual

/-- All coordinates of a geometry, used by the concrete bounds model
below. -/
def geometry_coords : Geometry → List Pt
  | .empty => []
  | .point p => [p]
  | .multipoint ps => ps
  | .line cs => cs
  | .multiline ls => ls.flatten
  | .poly p => p.exterior ++ p.interiors.flatten
  | .multipoly ps => ps.flatMap fun p => p.exterior ++ p.interiors.flatten
  | .collection gs => geometry_coords_list gs

/-- Concatenated coordinates over collection parts. -/
def geometry_coords_list : List Geometry → List Pt
  | [] => []
  | g :: gs => geometry_coords g ++ geometry_coords_list gs

end

/-- Concrete model of Shapely `geometry.area`: shoelace area of the
exterior minus the hole areas, summed over polygons (collections are
not exercised by the concrete evaluations and yield 0). -/
def model_area : Geometry → ℚ
  | .poly p => |shoelace_area p.exterior| - (p.interiors.map fun r => |shoelace_area r|).sum
  | .multipoly ps =>
    (ps.map fun p => |shoelace_area p.exterior| - (p.interiors.map fun r => |shoelace_area r|).sum).sum
  | _ => 0

/-- Concrete model of Shapely `geometry.bounds`: the coordinate-wise
envelope `(minx, miny, maxx, maxy)`. -/
def model_bounds (g : Geometry) : ℚ × ℚ × ℚ × ℚ :=
  match geometry_coords g with
  | [] => (0, 0, 0, 0)
  | c :: cs =>
    (cs.foldl (fun m p => min m p.1) c.1, cs.foldl (fun m p => min m p.2) c.2,
      cs.foldl (fun m p => max m p.1) c.1, cs.foldl (fun m p => max m p.2) c.2)

/-- Concrete model of `minimum_rotated_rectangle.exterior.coords`: the
axis-aligned envelope ring (exact for axis-aligned inputs). -/
def model_envelope_ring (g : Geometry) : List Pt :=
  let b := model_bounds g
  [(b.1, b.2.1), (b.2.2.1, b.2.1), (b.2.2.1, b.2.2.2), (b.1, b.2.2.2), (b.1, b.2.1)]

/-- Taxicab model of `math.hypot`, exact on `ℚ` and agreeing with the
Euclidean length on axis-aligned differences. -/
def model_hypot (a b : ℚ) : ℚ := |a| + |b|

/-- Line length under the taxicab metric. -/
def model_line_length (cs : List Pt) : ℚ :=
  ((cs.zip cs.tail).map fun ab => model_hypot (ab.2.1 - ab.1.1) (ab.2.2 - ab.1.2)).sum

/-- A concrete geometry-library model in which every geometry is valid,
repair is the identity, inward buffering annihilates and other
transforms are identities; metric queries are computed structurally. -/
def mops : GeomOps where
  isValid := fun _ => true
  makeValid := fun g => g
  buffer := fun g d => if d < 0 then Geometry.empty else g
  simplify := fun cs _ => cs
  area := model_area
  intersectLine := fun _ _ _ => SegGeom.empty
  rotateG := fun g _ _ => g
  rotateLine := fun cs _ _ => cs
  centroid := fun _ => (0, 0)
  boundsG := model_bounds
  minRotRectExterior := model_envelope_ring
  hypot := model_hypot
  sqrtQ := fun q => q
  project := fun _ _ => 0
  interpolate := fun cs _ => cs.headD (0, 0)
  substringL := fun cs _ _ => cs
  lineLength := model_line_length
  covers := fun _ _ _ => false
  unionG := fun g h => Geometry.collection [g, h]
  translateG := fun g _ _ => g
  scaleG := fun g _ _ _ => g

/-- The concrete model extended with a boolean intersection. -/
def mopsX : GeomOpsX where
  toGeomOps := mops
  intersectionG := fun g _ => g

/-- A degenerate library model in which nothing is valid and repair
returns the empty geometry: every region vanishes on cleaning. -/
def vops : GeomOps where
  isValid := fun _ => false
  makeValid := fun _ => Geometry.empty
  buffer := fun _ _ => Geometry.empty
  simplify := fun cs _ => cs
  area := model_area
  intersectLine := fun _ _ _ => SegGeom.empty
  rotateG := fun g _ _ => g
  rotateLine := fun cs _ _ => cs
  centroid := fun _ => (0, 0)
  boundsG := model_bounds
  minRotRectExterior := model_envelope_ring
  hypot := model_hypot
  sqrtQ := fun q => q
  project := fun _ _ => 0
  interpolate := fun cs _ => cs.headD (0, 0)
  substringL := fun cs _ _ => cs
  lineLength := model_line_length
  covers := fun _ _ _ => false
  unionG := fun g h => Geometry.collection [g, h]
  translateG := fun g _ _ => g
  scaleG := fun g _ _ _ => g

/-- The closed 10 x 10 square ring used in the concrete evaluations. -/
def squareRing : List Pt := [(0, 0), (10, 0), (10, 10), (0, 10), (0, 0)]

/-- A closed 6 x 6 hole ring inside `squareRing`. -/
def holeRing : List Pt := [(2, 2), (2, 8), (8, 8), (8, 2), (2, 2)]

/-- The 10 x 10 square with a 6 x 6 hole: one polygon, two boundary
rings. -/
def annulus : Geometry := Geometry.poly ⟨squareRing, [holeRing]⟩

/-- The plain 10 x 10 square. -/
def square10 : Geometry := Geometry.poly ⟨squareRing, []⟩

/-- A vertical segment: its bounds have zero width. -/
def verticalSegment : Geometry := Geometry.line [(3, 0), (3, 5)]

/-- A concrete filled shape whose geometry is the vertical segment. -/
def shape0 : ShapeGeometry :=
  { geometry := verticalSegment, brightness := 0, stroke_width := none, color := none }

/-- The palette RGB dict of the concrete configuration `cfg0`. -/
def rgbd0 : List (String × (ℕ × ℕ × ℕ)) :=
  [("#000000", (0, 0, 0)), ("#FF0000", (255, 0, 0))]

/-- A concrete bare toolpath without a source color. -/
def tp0 : Toolpath :=
  { points := [(0, 0), (1, 1)], tag := "infill", source_color := none,
    assigned_color := none, brightness := none }

/-- A minimal concrete slicer configuration for the closed evaluations. -/
def cfg0 : SlicerConfig where
  printer :=
    { x_min := 0, x_max := 200, y_min := 0, y_max := 200
      color_mode := true, available_colors := ["#000000", "#FF0000"] }
  infill := { base_spacing := 1, min_density := 1/10, max_density := 9/10, angles := [0] }
  perimeter :=
    { thickness := 2/5, density := 1, min_fill_width := 4/5, count := 2, min_fill_mode := "min" }
  sampling := { outline_simplify_tolerance := 0 }

/-!  Theorems.  General lemmas first, then one theorem per claim (with
counterexamples and witnesses where applicable). -/

/-- Cleaning an empty geometry returns it unchanged. -/
theorem clean_geometry_of_isEmpty (ops : GeomOps) (g : Geometry)
    (h : g.isEmptyG = true) : clean_geometry ops g = g := by
  unfold clean_geometry
  simp [h]

/-- Decomposing a geometry whose cleaned form is empty yields no
polygons. -/
theorem geometry_to_polygons_of_isEmpty (ops : GeomOps) (g : Geometry)
    (h : g.isEmptyG = true) : geometry_to_polygons ops g = [] := by
  unfold geometry_to_polygons geometry_to_polygons_fuel
  rw [clean_geometry_of_isEmpty ops g h]
  simp [h]

/-- C6: with `min_density ≤ max_density`, the brightness-to-density map
is monotone non-increasing in brightness, sends brightness 0 to exactly
`max_density` and brightness 1 to exactly `min_density`. -/
theorem C6_theorem (config : SlicerConfig)
    (h : config.infill.min_density ≤ config.infill.max_density) :
    (∀ b1 b2 : ℚ, b1 ≤ b2 →
      brightness_to_density b2 config ≤ brightness_to_density b1 config) ∧
      brightness_to_density 0 config = config.infill.max_density ∧
      brightness_to_density 1 config = config.infill.min_density := by
  unfold brightness_to_density
  refine ⟨fun b1 b2 hb => ?_, by ring, by ring⟩
  show config.infill.min_density +
      (1 - b2) * (config.infill.max_density - config.infill.min_density) ≤
    config.infill.min_density +
      (1 - b1) * (config.infill.max_density - config.infill.min_density)
  have hd : (0 : ℚ) ≤ config.infill.max_density - config.infill.min_density := by linarith
  have hm := mul_le_mul_of_nonneg_right
    (show (1 : ℚ) - b2 ≤ 1 - b1 by linarith) hd
  linarith

/-- Witness for C6 at the concrete configuration `cfg0`. -/
theorem C6_witness :
    brightness_to_density 0 cfg0 = cfg0.infill.max_density ∧
      brightness_to_density 1 cfg0 = cfg0.infill.min_density :=
  ⟨(C6_theorem cfg0 (by norm_num [cfg0])).2.1,
    (C6_theorem cfg0 (by norm_num [cfg0])).2.2⟩

/-- C4: with non-positive `min_fill_width`, `_select_infill_regions`
returns exactly the decomposition of the repaired input polygon,
whatever the mode string. -/
theorem C4_theorem (ops : GeomOpsX) (polygon : Geometry) (w : ℚ) (mode : String)
    (hw : w ≤ 0) :
    select_infill_regions ops polygon w mode =
      (geometry_to_polygons ops.toGeomOps
        (clean_geometry ops.toGeomOps polygon)).map Geometry.poly := by
  unfold select_infill_regions
  by_cases h : (clean_geometry ops.toGeomOps polygon).isEmptyG
  · rw [geometry_to_polygons_of_isEmpty ops.toGeomOps _ h]
    simp [h]
  · simp [h, hw]

/-- Witness for C4 with the concrete model on the plain square. -/
theorem C4_witness :
    select_infill_regions mopsX square10 0 "min" =
      (geometry_to_polygons mops (clean_geometry mops square10)).map Geometry.poly :=
  C4_theorem mopsX square10 0 "min" (by norm_num)

/-- C5: with positive `min_fill_width`, mode `"max"` keeps the whole
repaired polygon exactly when the longest edge of its minimum rotated
bounding rectangle reaches the threshold, and otherwise discards it;
never a partial decomposition. -/
theorem C5_theorem (ops : GeomOpsX) (polygon : Geometry) (w : ℚ) (hw : 0 < w) :
    select_infill_regions ops polygon w "max" =
      (if w ≤ max_dimension ops.toGeomOps (clean_geometry ops.toGeomOps polygon)
       then [clean_geometry ops.toGeomOps polygon] else []) := by
  unfold select_infill_regions
  by_cases h : (clean_geometry ops.toGeomOps polygon).isEmptyG
  · have hmd : max_dimension ops.toGeomOps (clean_geometry ops.toGeomOps polygon) = 0 := by
      unfold max_dimension
      simp [h]
    rw [hmd]
    simp [h, not_le.mpr hw]
  · simp [h, not_le.mpr hw, fill_dimension, ge_iff_le]

/-- Witness for C5: the 10 x 10 square passes a 5 mm threshold whole. -/
theorem C5_witness :
    select_infill_regions mopsX square10 5 "max" = [clean_geometry mops square10] := by
  rw [C5_theorem mopsX square10 5 (by norm_num)]
  rw [if_pos]
  · rfl
  · show (5 : ℚ) ≤ max_dimension mopsX.toGeomOps (clean_geometry mopsX.toGeomOps square10)
    norm_num [max_dimension, clean_geometry, mopsX, mops, square10, squareRing,
      Geometry.isEmptyG, model_envelope_ring, model_bounds, geometry_coords,
      edge_lengths, list_max_or_zero, model_hypot]

/-- C2: for a filled polygon with positive perimeter thickness and
`perimeter_count ≥ 1`, and with the library contract that buffering
already returns repaired geometry (`clean` fixes the buffer output),
the interior handed on for infill selection is exactly the polygon
eroded by `thickness * (perimeter_count - 1)`, and it is handed on only
when non-empty. -/
theorem C2_theorem (ops : GeomOps) (polygon : Geometry) (w : ℚ) (count : ℤ)
    (hw : 0 < w) (hc : 1 ≤ count)
    (hv : clean_geometry ops (spec_eroded_interior ops polygon w count) =
      spec_eroded_interior ops polygon w count) :
    interior_region_for_infill ops polygon w count =
      (if (spec_eroded_interior ops polygon w count).isEmptyG then none
       else some (spec_eroded_interior ops polygon w count)) := by
  have hmax : max (count - 1) 0 = count - 1 := by omega
  unfold interior_region_for_infill
  unfold spec_eroded_interior at hv ⊢
  rw [hmax]
  simp only [if_pos hw]
  rw [hv]
  generalize ops.buffer polygon (-(w * ((count - 1 : ℤ) : ℚ))) = X
  cases he : X.isEmptyG <;> simp [he]

/-- Witness for C2: eroding the square by one full thickness in the
concrete model empties it, so nothing is handed to infill selection. -/
theorem C2_witness :
    interior_region_for_infill mops square10 1 2 =
      (if (spec_eroded_interior mops square10 1 2).isEmptyG then none
       else some (spec_eroded_interior mops square10 1 2)) :=
  C2_theorem mops square10 1 2 (by norm_num) (by norm_num)
    (by norm_num [spec_eroded_interior, mops, clean_geometry, Geometry.isEmptyG])

/-- Re-closing a nonempty coordinate list yields a closed polyline
(head equals last) at least as long as the input. -/
theorem close_ring_spec (cs : Polyline) (h : cs ≠ []) :
    (close_ring cs).head? = (close_ring cs).getLast? ∧
      cs.length ≤ (close_ring cs).length := by
  obtain ⟨a, as, rfl⟩ := List.exists_cons_of_ne_nil h
  have hlast : (a :: as).getLast? = some ((a :: as).getLast (by simp)) :=
    List.getLast?_eq_getLast _ (by simp)
  unfold close_ring
  rw [List.head?_cons, hlast]
  show (if a ≠ (a :: as).getLast (by simp) then (a :: as) ++ [a] else a :: as).head? =
      (if a ≠ (a :: as).getLast (by simp) then (a :: as) ++ [a] else a :: as).getLast? ∧
    (a :: as).length ≤
      (if a ≠ (a :: as).getLast (by simp) then (a :: as) ++ [a] else a :: as).length
  by_cases hne : a = (a :: as).getLast (by simp)
  · rw [if_neg (fun hc => hc hne)]
    exact ⟨by rw [List.head?_cons, hlast]; exact congrArg some hne, le_refl _⟩
  · rw [if_pos hne]
    refine ⟨?_, by simp⟩
    have hhead : ((a :: as) ++ [a]).head? = some a := rfl
    rw [hhead, List.getLast?_concat]

/-- Every non-empty result of `_ring_to_polyline` is a closed ring with
at least 2 points. -/
theorem ring_to_polyline_spec (ops : GeomOps) (ring : List Pt) (tolerance : ℚ) :
    ring_to_polyline ops ring tolerance = [] ∨
      ((ring_to_polyline ops ring tolerance).head? =
          (ring_to_polyline ops ring tolerance).getLast? ∧
        2 ≤ (ring_to_polyline ops ring tolerance).length) := by
  unfold ring_to_polyline
  by_cases hl : ring.length < 2
  · exact Or.inl (by simp [hl])
  · right
    simp only [if_neg hl]
    set simplified := ops.simplify ring (max tolerance 0) with hs
    by_cases h3 : simplified.length < 3
    · simp only [if_pos h3]
      have hne : ring ≠ [] := by
        intro hnil
        rw [hnil] at hl
        simp at hl
      have := close_ring_spec ring hne
      exact ⟨this.1, le_trans (by omega) this.2⟩
    · simp only [if_neg h3]
      have hne : simplified ≠ [] := by
        intro hnil
        rw [hnil] at h3
        simp at h3
      have := close_ring_spec simplified hne
      exact ⟨this.1, le_trans (by omega) this.2⟩

/-- Every loop a perimeter pass emits is closed with at least 2
points. -/
theorem pass_rings_closed (ops : GeomOps) (g : Geometry) (tolerance : ℚ) :
    ∀ loop ∈ pass_rings ops g tolerance,
      loop.head? = loop.getLast? ∧ 2 ≤ loop.length := by
  intro loop hloop
  unfold pass_rings at hloop
  rw [List.mem_flatMap] at hloop
  obtain ⟨poly, _, hmem⟩ := hloop
  rw [List.mem_append] at hmem
  rcases hmem with hmem | hmem
  · by_cases hne : ring_to_polyline ops poly.exterior tolerance ≠ []
    · rw [if_pos hne, List.mem_singleton] at hmem
      subst hmem
      rcases ring_to_polyline_spec ops poly.exterior tolerance with h | h
      · exact absurd h hne
      · exact h
    · rw [if_neg hne] at hmem
      simp at hmem
  · rw [List.mem_filterMap] at hmem
    obtain ⟨ring, _, hring⟩ := hmem
    by_cases hne : ring_to_polyline ops ring tolerance ≠ []
    · rw [if_pos hne, Option.some_inj] at hring
      subst hring
      rcases ring_to_polyline_spec ops ring tolerance with h | h
      · exact absurd h hne
      · exact h
    · rw [if_neg hne] at hring
      cases hring

/-- Every loop emitted across the offset passes is closed with at least
2 points. -/
theorem perimeter_loops_aux_closed (ops : GeomOps) (step tolerance : ℚ) :
    ∀ (fuel : ℕ) (g : Geometry),
      ∀ loop ∈ perimeter_loops_aux ops step tolerance fuel g,
        loop.head? = loop.getLast? ∧ 2 ≤ loop.length := by
  intro fuel
  induction fuel with
  | zero => intro g loop hloop; simp [perimeter_loops_aux] at hloop
  | succ n ih =>
    intro g loop hloop
    unfold perimeter_loops_aux at hloop
    by_cases hc : (clean_geometry ops g).isEmptyG = true ∨
        ops.area (clean_geometry ops g) ≤ 0
    · rw [if_pos hc] at hloop
      cases hloop
    · rw [if_neg hc, List.mem_append] at hloop
      rcases hloop with h | h
      · exact pass_rings_closed ops _ tolerance loop h
      · exact ih _ loop h

/-- When every pass of the run emits at most `B` rings, the total loop
count is bounded by `fuel * B`; the `k`-th pass acts on the `k`-fold
inward offset of the starting region. -/
theorem perimeter_loops_aux_length (ops : GeomOps) (step tolerance : ℚ) (B : ℕ) :
    ∀ (fuel : ℕ) (g : Geometry),
      (∀ k < fuel, (pass_rings ops (clean_geometry ops
        ((fun h => ops.buffer (clean_geometry ops h) (-step))^[k] g))
          tolerance).length ≤ B) →
      (perimeter_loops_aux ops step tolerance fuel g).length ≤ fuel * B := by
  intro fuel
  induction fuel with
  | zero => intro g _; simp [perimeter_loops_aux]
  | succ n ih =>
    intro g hB
    unfold perimeter_loops_aux
    by_cases hc : (clean_geometry ops g).isEmptyG = true ∨
        ops.area (clean_geometry ops g) ≤ 0
    · rw [if_pos hc]
      simp
    · rw [if_neg hc]
      rw [List.length_append]
      have h1 := hB 0 (Nat.succ_pos n)
      rw [Function.iterate_zero_apply] at h1
      have hB2 : ∀ k < n, (pass_rings ops (clean_geometry ops
          ((fun h => ops.buffer (clean_geometry ops h) (-step))^[k]
            (ops.buffer (clean_geometry ops g) (-step)))) tolerance).length ≤ B := by
        intro k hk
        have h3 := hB (k + 1) (Nat.succ_lt_succ hk)
        rwa [Function.iterate_succ_apply] at h3
      have h2 := ih (ops.buffer (clean_geometry ops g) (-step)) hB2
      calc (pass_rings ops (clean_geometry ops g) tolerance).length +
            (perimeter_loops_aux ops step tolerance n
              (ops.buffer (clean_geometry ops g) (-step))).length
          ≤ B + n * B := Nat.add_le_add h1 h2
        _ = (n + 1) * B := by ring

/-- C1 (amended): `_generate_perimeter_loops` runs at most
`ceil(target_width/step)` inward offset passes after the clamps, each
emitting one closed loop per boundary ring (exterior or hole) of each
polygon of the current region; hence when every pass of the run emits
at most `B` rings (the `k`-th pass acting on the `k`-fold inward
offset) the result has at most `ceil(target_width/step) * B` loops — in
particular at most `ceil(target_width/step)` when each pass contributes
a single ring — and, unconditionally, every returned loop is a closed
ring (first point equals last point) with at least 2 points. -/
theorem C1_theorem (ops : GeomOps) (polygon : Geometry)
    (step target_width tolerance : ℚ) (B : ℕ) :
    ((∀ k < (max 1 ⌈max target_width (max step (1e-6 : ℚ)) / max step (1e-6 : ℚ)⌉).toNat,
        (pass_rings ops (clean_geometry ops
          ((fun h => ops.buffer (clean_geometry ops h) (-(max step (1e-6 : ℚ))))^[k]
            (clean_geometry ops polygon))) tolerance).length ≤ B) →
      (generate_perimeter_loops ops polygon step target_width tolerance).length ≤
        (max 1 ⌈max target_width (max step (1e-6 : ℚ)) / max step (1e-6 : ℚ)⌉).toNat * B) ∧
      ∀ loop ∈ generate_perimeter_loops ops polygon step target_width tolerance,
        loop.head? = loop.getLast? ∧ 2 ≤ loop.length := by
  constructor
  · intro hB
    calc (generate_perimeter_loops ops polygon step target_width tolerance).length
        ≤ (perimeter_loops_aux ops (max step (1e-6 : ℚ)) tolerance
            (max 1 ⌈max target_width (max step (1e-6 : ℚ)) / max step (1e-6 : ℚ)⌉).toNat
            (clean_geometry ops polygon)).length := by
          unfold generate_perimeter_loops
          exact List.length_filter_le _ _
      _ ≤ _ := perimeter_loops_aux_length ops _ tolerance B _ _ hB
  · intro loop hloop
    unfold generate_perimeter_loops at hloop
    rw [List.mem_filter] at hloop
    exact perimeter_loops_aux_closed ops _ tolerance _ _ loop hloop.1

/-- C1 counterexample: on the square-with-hole polygon a single offset
pass (`step = target_width = 1`, so `ceil(target_width/step) = 1`)
already emits 2 loops — the exterior ring and the hole ring — exceeding
the claimed `ceil(target_width/step)` bound. -/
theorem C1_counterexample :
    ¬ ((generate_perimeter_loops mops annulus 1 1 0).length ≤
      (max 1 ⌈max (1 : ℚ) (max 1 (1e-6 : ℚ)) / max 1 (1e-6 : ℚ)⌉).toNat) := by
  have hstep : max (1 : ℚ) (1e-6 : ℚ) = 1 := by norm_num
  have htw : max (1 : ℚ) (max (1 : ℚ) (1e-6 : ℚ)) = 1 := by norm_num
  have hM : (max 1 ⌈max (1 : ℚ) (max 1 (1e-6 : ℚ)) / max 1 (1e-6 : ℚ)⌉).toNat = 1 := by
    rw [htw, hstep]
    norm_num
  have hclean : clean_geometry mops annulus = annulus := by
    unfold clean_geometry
    simp [mops, annulus, Geometry.isEmptyG, squareRing]
  have harea : model_area annulus = 64 := by
    norm_num [model_area, annulus, shoelace_area, squareRing, holeRing]
  have hpolys : geometry_to_polygons mops annulus = [⟨squareRing, [holeRing]⟩] := by
    unfold geometry_to_polygons
    rw [hclean]
    unfold geometry_to_polygons_fuel
    rw [hclean]
    simp [annulus, Geometry.isEmptyG, squareRing]
  have hring1 : ring_to_polyline mops squareRing 0 = squareRing := by
    unfold ring_to_polyline
    simp [mops, squareRing, close_ring]
  have hring2 : ring_to_polyline mops holeRing 0 = holeRing := by
    unfold ring_to_polyline
    simp [mops, holeRing, close_ring]
  have hsq : squareRing ≠ [] := by simp [squareRing]
  have hhole : holeRing ≠ [] := by simp [holeRing]
  have hpass : pass_rings mops annulus 0 = [squareRing, holeRing] := by
    unfold pass_rings
    rw [hpolys]
    simp only [List.flatMap_cons, List.flatMap_nil, List.append_nil,
      List.filterMap_cons, List.filterMap_nil]
    rw [hring1, hring2]
    simp [hsq, hhole]
  have hcond : ¬ (annulus.isEmptyG = true ∨ mops.area annulus ≤ 0) := by
    push_neg
    refine ⟨by simp [annulus, Geometry.isEmptyG, squareRing], ?_⟩
    show (0 : ℚ) < model_area annulus
    rw [harea]
    norm_num
  have hgen : generate_perimeter_loops mops annulus 1 1 0 = [squareRing, holeRing] := by
    unfold generate_perimeter_loops
    show (perimeter_loops_aux mops (max 1 (1e-6 : ℚ)) 0
        (max 1 ⌈max (1 : ℚ) (max 1 (1e-6 : ℚ)) / max 1 (1e-6 : ℚ)⌉).toNat
        (clean_geometry mops annulus)).filter (fun loop => decide (2 ≤ loop.length)) = _
    rw [hclean, hM, hstep]
    unfold perimeter_loops_aux
    rw [hclean, if_neg hcond, hpass]
    have hlen1 : 2 ≤ squareRing.length := by simp [squareRing]
    have hlen2 : 2 ≤ holeRing.length := by simp [holeRing]
    rw [show perimeter_loops_aux mops 1 0 0 (mops.buffer annulus (-1)) = [] from rfl]
    simp [hlen1, hlen2]
  rw [hgen, hM]
  simp

/-- Witness for C1 on the annulus itself: a single pass emitting its
two rings (`B = 2`), so at most `1 * 2` loops, all closed with at
least 2 points. -/
theorem C1_witness :
    (generate_perimeter_loops mops annulus 1 1 0).length ≤
        (max 1 ⌈max (1 : ℚ) (max 1 (1e-6 : ℚ)) / max 1 (1e-6 : ℚ)⌉).toNat * 2 ∧
      ∀ loop ∈ generate_perimeter_loops mops annulus 1 1 0,
        loop.head? = loop.getLast? ∧ 2 ≤ loop.length := by
  obtain ⟨h1, h2⟩ := C1_theorem mops annulus 1 1 0 2
  refine ⟨h1 ?_, h2⟩
  intro k hk
  have hstep : max (1 : ℚ) (1e-6 : ℚ) = 1 := by norm_num
  have htw : max (1 : ℚ) (max 1 (1e-6 : ℚ)) = 1 := by norm_num
  have hM : (max 1 ⌈max (1 : ℚ) (max 1 (1e-6 : ℚ)) / max 1 (1e-6 : ℚ)⌉).toNat = 1 := by
    rw [htw, hstep]
    norm_num
  rw [hM] at hk
  have hk0 : k = 0 := Nat.lt_one_iff.mp hk
  subst hk0
  rw [Function.iterate_zero_apply]
  have hclean : clean_geometry mops annulus = annulus := by
    unfold clean_geometry
    simp [mops, annulus, Geometry.isEmptyG, squareRing]
  have hpolys : geometry_to_polygons mops annulus = [⟨squareRing, [holeRing]⟩] := by
    unfold geometry_to_polygons
    rw [hclean]
    unfold geometry_to_polygons_fuel
    rw [hclean]
    simp [annulus, Geometry.isEmptyG, squareRing]
  have hring1 : ring_to_polyline mops squareRing 0 = squareRing := by
    unfold ring_to_polyline
    simp [mops, squareRing, close_ring]
  have hring2 : ring_to_polyline mops holeRing 0 = holeRing := by
    unfold ring_to_polyline
    simp [mops, holeRing, close_ring]
  have hsq : squareRing ≠ [] := by simp [squareRing]
  have hhole : holeRing ≠ [] := by simp [holeRing]
  have hpass : pass_rings mops annulus 0 = [squareRing, holeRing] := by
    unfold pass_rings
    rw [hpolys]
    simp only [List.flatMap_cons, List.flatMap_nil, List.append_nil,
      List.filterMap_cons, List.filterMap_nil]
    rw [hring1, hring2]
    simp [hsq, hhole]
  rw [hclean, hclean, hpass]
  simp

/-- Fold preservation: a property stable under every step holds of the
fold result. -/
theorem foldl_preserve {α β : Type} (P : β → Prop) (f : β → α → β) :
    ∀ (l : List α) (init : β), P init →
      (∀ b a, a ∈ l → P b → P (f b a)) → P (l.foldl f init) := by
  intro l
  induction l with
  | nil => intro init h _; exact h
  | cons a as ih =>
    intro init h hstep
    exact ih (f init a) (hstep init a (by simp) h)
      fun b x hx hb => hstep b x (by simp [hx]) hb

/-- A successful `findIdx?` returns an index inside the list. -/
theorem find_idx_lt_length {α : Type} (p : α → Bool) :
    ∀ (l : List α) (j : ℕ), List.findIdx? p l = some j → j < l.length := by
  intro l
  induction l with
  | nil => intro j h; simp [List.findIdx?] at h
  | cons a as ih =>
    intro j h
    rw [List.findIdx?_cons] at h
    by_cases hp : p a
    · simp [hp] at h
      simp [← h]
    · simp [hp] at h
      obtain ⟨k, hk, hkj⟩ := h
      have := ih k hk
      simp [List.length_cons]
      omega

/-- The first-angle chooser returns a valid index on non-empty input. -/
theorem choose_first_by_angle_lt (candidates : List (ℕ × Polyline))
    (h : candidates ≠ []) :
    choose_first_by_angle candidates < candidates.length := by
  have key : ∀ angle_idx : ℕ,
      (match candidates.findIdx? fun c => decide (c.1 = angle_idx) with
       | some idx => idx
       | none => 0) < candidates.length := by
    intro angle_idx
    split
    · next idx hf => exact find_idx_lt_length _ candidates idx hf
    · exact List.length_pos.mpr h
  unfold choose_first_by_angle
  split
  · exact key _
  · exact key _

/-- An element of the enumeration has an in-range index and a member
value. -/
theorem mem_enum_spec {α : Type} {l : List α} {x : ℕ × α} (h : x ∈ l.enum) :
    x.1 < l.length ∧ x.2 ∈ l := by
  rw [List.mem_enum_iff_getElem?] at h
  obtain ⟨hlt, hget⟩ := List.getElem?_eq_some.mp h
  exact ⟨hlt, hget ▸ List.getElem_mem hlt⟩

/-- The nearest-endpoint chooser returns a valid index on non-empty
input. -/
theorem choose_nearest_lt (ops : GeomOps) (candidates : List (ℕ × Polyline))
    (cp : Pt) (h : candidates ≠ []) :
    (choose_nearest ops candidates cp).1 < candidates.length := by
  unfold choose_nearest
  have h0 : (0 : ℕ) < candidates.length := List.length_pos.mpr h
  exact foldl_preserve
    (fun (st : Option ℚ × ℕ × Bool) => st.2.1 < candidates.length)
    _ candidates.enum ((none : Option ℚ), 0, false) h0 (by
      intro st p hp hst
      obtain ⟨bd, ci, rv⟩ := st
      dsimp only
      repeat' split
      all_goals first
        | exact (mem_enum_spec hp).1
        | exact hst)

/-- Oriented runs handed to `interleave_aux` with all lengths at least 2
yield output polylines of length at least 2. -/
theorem interleave_aux_min_length (ops : GeomOps) :
    ∀ (fuel : ℕ) (candidates : List (ℕ × Polyline)) (cur : Option Pt),
      (∀ c ∈ candidates, 2 ≤ c.2.length) →
      ∀ p ∈ interleave_aux ops fuel candidates cur, 2 ≤ p.length := by
  intro fuel
  induction fuel with
  | zero => intro c cur h p hp; simp [interleave_aux] at hp
  | succ n ih =>
    intro candidates cur h p hp
    unfold interleave_aux at hp
    by_cases hc : candidates.isEmpty
    · rw [if_pos hc] at hp
      cases hp
    · rw [if_neg hc] at hp
      dsimp only at hp
      have hne : candidates ≠ [] := by simpa [List.isEmpty_iff] using hc
      have hlt : (match cur with
          | none => (choose_first_by_angle candidates, false)
          | some cp => choose_nearest ops candidates cp).1 < candidates.length := by
        cases cur with
        | none => exact choose_first_by_angle_lt candidates hne
        | some cp => exact choose_nearest_lt ops candidates cp hne
      rcases List.mem_cons.mp hp with hp | hp
      · have hget : candidates.getD (match cur with
            | none => (choose_first_by_angle candidates, false)
            | some cp => choose_nearest ops candidates cp).1 ((0 : ℕ), ([] : Polyline)) ∈
              candidates := by
          rw [List.getD_eq_getElem _ _ hlt]
          exact List.getElem_mem hlt
        have h2 := h _ hget
        rw [hp]
        split
        · simpa using h2
        · exact h2
      · exact ih _ _ (fun c hcmem => h c (List.eraseIdx_subset _ _ hcmem)) p hp

/-- Every polyline produced by `_interleave_orientations` has at least
2 points. -/
theorem interleave_min_length (ops : GeomOps) (aps : List (List Polyline)) :
    ∀ p ∈ interleave_orientations ops aps, 2 ≤ p.length := by
  intro p hp
  unfold interleave_orientations at hp
  by_cases hc : ((aps.enum).flatMap fun ap =>
      ap.2.filterMap fun polyline =>
        if 2 ≤ polyline.length then some (ap.1, polyline) else none).isEmpty
  · rw [if_pos hc] at hp
    cases hp
  · rw [if_neg hc] at hp
    refine interleave_aux_min_length ops _ _ _ ?_ p hp
    intro c hcmem
    rw [List.mem_flatMap] at hcmem
    obtain ⟨ap, _, hmem⟩ := hcmem
    rw [List.mem_filterMap] at hmem
    obtain ⟨q, _, hq⟩ := hmem
    by_cases hq2 : 2 ≤ q.length
    · rw [if_pos hq2, Option.some_inj] at hq
      rw [← hq]
      exact hq2
    · rw [if_neg hq2] at hq
      cases hq

/-- Gluing polylines that all have at least 2 points yields polylines
with at least 2 points. -/
theorem glue_polylines_min_length (ops : GeomOps) (polylines : List Polyline)
    (tolerance : ℚ) (region : Option Geometry) (loops : Option (List (List Pt)))
    (h : ∀ p ∈ polylines, 2 ≤ p.length) :
    ∀ p ∈ glue_polylines ops polylines tolerance region loops, 2 ≤ p.length := by
  have hstep : ∀ (acc : List Polyline × Polyline) (q : Polyline),
      (∀ r ∈ acc.1, 2 ≤ r.length) ∧ 2 ≤ acc.2.length →
      (∀ r ∈ (glue_step ops tolerance region loops acc q).1, 2 ≤ r.length) ∧
        2 ≤ (glue_step ops tolerance region loops acc q).2.length := by
    intro acc q hacc
    have hpush : ∀ r ∈ acc.1 ++ [acc.2], 2 ≤ r.length := by
      intro r hr
      rcases List.mem_append.mp hr with hr | hr
      · exact hacc.1 r hr
      · rw [List.mem_singleton] at hr
        subst hr
        exact hacc.2
    have hcur1 : ∀ (conn : Option Polyline),
        2 ≤ ((match conn with
          | some cp => if 1 < cp.length then acc.2 ++ cp.tail else acc.2
          | none => acc.2) ++ q.tail).length ∧
        2 ≤ ((match conn with
          | some cp => if 1 < cp.length then acc.2 ++ cp.tail else acc.2
          | none => acc.2) ++ q.reverse.tail).length := by
      intro conn
      have h2 := hacc.2
      constructor <;>
        (rw [List.length_append]
         cases conn with
         | none => dsimp only; omega
         | some cp =>
           dsimp only
           split
           · rw [List.length_append]
             omega
           · omega)
    unfold glue_step
    by_cases h1 : q.length < 2
    · simp only [if_pos h1]
      exact hacc
    · simp only [if_neg h1]
      have hq2 : 2 ≤ q.length := by omega
      have hrev2 : 2 ≤ q.reverse.length := by simpa using hq2
      repeat' split
      all_goals first
        | exact ⟨hpush, hrev2⟩
        | exact ⟨hpush, hq2⟩
        | exact ⟨hacc.1, (hcur1 _).2⟩
        | exact ⟨hacc.1, (hcur1 _).1⟩
        | exact ⟨hacc.1, by
            have h2a := hacc.2
            dsimp only
            simp only [List.length_append]
            omega⟩
  unfold glue_polylines
  match polylines, h with
  | [], _ => intro p hp; cases hp
  | first :: rest, h =>
    intro p hp
    have hinv := foldl_preserve
      (fun (acc : List Polyline × Polyline) =>
        (∀ q ∈ acc.1, 2 ≤ q.length) ∧ 2 ≤ acc.2.length)
      (glue_step ops tolerance region loops) rest ([], first)
      ⟨by simp, h first (by simp)⟩ (fun b a _ hb => hstep b a hb)
    rcases List.mem_append.mp hp with hm | hm
    · exact hinv.1 p hm
    · rw [List.mem_singleton] at hm
      subst hm
      exact hinv.2

/-- C3: `generate_rectilinear_infill` never returns a polyline of fewer
than 2 points; an empty or non-positive-area polygon, or a density that
clamps to a non-positive value, yields the empty list. -/
theorem C3_theorem (ops : GeomOps) (polygon : Geometry) (density : ℚ)
    (config : InfillConfig) :
    (∀ p ∈ generate_rectilinear_infill ops polygon density config, 2 ≤ p.length) ∧
      (polygon.isEmptyG = true ∨ ops.area polygon ≤ 0 →
        generate_rectilinear_infill ops polygon density config = []) ∧
      (max config.min_density (min config.max_density density) ≤ 0 →
        generate_rectilinear_infill ops polygon density config = []) := by
  refine ⟨?_, ?_, ?_⟩
  · intro p hp
    unfold generate_rectilinear_infill at hp
    by_cases h1 : polygon.isEmptyG = true ∨ ops.area polygon ≤ 0
    · rw [if_pos h1] at hp
      cases hp
    · rw [if_neg h1] at hp
      by_cases h2 : max config.min_density (min config.max_density density) ≤ 0
      · rw [if_pos h2] at hp
        cases hp
      · rw [if_neg h2] at hp
        dsimp only at hp
        exact glue_polylines_min_length ops _ _ _ _
          (interleave_min_length ops _) p hp
  · intro h
    unfold generate_rectilinear_infill
    rw [if_pos h]
  · intro h
    unfold generate_rectilinear_infill
    by_cases h1 : polygon.isEmptyG = true ∨ ops.area polygon ≤ 0
    · rw [if_pos h1]
    · rw [if_neg h1, if_pos h]

/-- Witness for C3: the empty geometry produces no infill. -/
theorem C3_witness :
    generate_rectilinear_infill mops Geometry.empty (1/2) cfg0.infill = [] :=
  (C3_theorem mops Geometry.empty (1/2) cfg0.infill).2.1 (Or.inl rfl)

/-- The output relation of `_interleave_orientations`: the second list
is a permutation of the first in which every element is kept either in
original or in fully reversed point order. -/
def OrientedPerm (a b : List Polyline) : Prop :=
  ∃ l, a.Perm l ∧ List.Forall₂ (fun x y => y = x ∨ y = x.reverse) l b

/-- A list is a permutation of any one element consed onto its removal. -/
theorem perm_getElem_cons_eraseIdx {α : Type} (l : List α) (i : ℕ)
    (h : i < l.length) : l.Perm (l[i] :: l.eraseIdx i) := by
  have h1 : l.take i ++ (l[i] :: l.drop (i + 1)) = l := by
    rw [List.get_drop_eq_drop l i h]
    exact List.take_append_drop i l
  have h2 : (l.take i ++ (l[i] :: l.drop (i + 1))).Perm
      (l[i] :: (l.take i ++ l.drop (i + 1))) := List.perm_middle
  have h3 : l.Perm (l[i] :: (l.take i ++ l.drop (i + 1))) := by
    conv_lhs => rw [← h1]
    exact h2
  rw [List.eraseIdx_eq_take_drop_succ]
  exact h3

/-- The interleave loop outputs exactly the candidates, each possibly
reversed, when fuelled with the candidate count. -/
theorem interleave_aux_perm (ops : GeomOps) :
    ∀ (fuel : ℕ) (candidates : List (ℕ × Polyline)) (cur : Option Pt),
      fuel = candidates.length →
      OrientedPerm (candidates.map Prod.snd)
        (interleave_aux ops fuel candidates cur) := by
  intro fuel
  induction fuel with
  | zero =>
    intro candidates cur hf
    have hnil : candidates = [] := List.length_eq_zero.mp hf.symm
    subst hnil
    exact ⟨[], List.Perm.nil, List.Forall₂.nil⟩
  | succ n ih =>
    intro candidates cur hf
    have hne : candidates ≠ [] := by
      intro hnil
      rw [hnil] at hf
      simp at hf
    have hc : candidates.isEmpty = false := by simpa [List.isEmpty_iff] using hne
    unfold interleave_aux
    rw [if_neg (by simp [hc])]
    dsimp only
    have hlt : (match cur with
        | none => (choose_first_by_angle candidates, false)
        | some cp => choose_nearest ops candidates cp).1 < candidates.length := by
      cases cur with
      | none => exact choose_first_by_angle_lt candidates hne
      | some cp => exact choose_nearest_lt ops candidates cp hne
    set chosen := (match cur with
      | none => (choose_first_by_angle candidates, false)
      | some cp => choose_nearest ops candidates cp) with hchosen
    have hlen : n = (candidates.eraseIdx chosen.1).length := by
      have := List.length_eraseIdx_add_one hlt
      omega
    obtain ⟨l, hperm, hfa⟩ := ih (candidates.eraseIdx chosen.1)
      (some ((List.getLast? (if chosen.2 = true
          then (candidates.getD chosen.1 (0, [])).2.reverse
          else (candidates.getD chosen.1 (0, [])).2)).getD (0, 0))) hlen
    refine ⟨candidates[chosen.1].2 :: l, ?_, ?_⟩
    · have hp1 : (candidates.map Prod.snd).Perm
          ((candidates[chosen.1] :: candidates.eraseIdx chosen.1).map Prod.snd) :=
        (perm_getElem_cons_eraseIdx candidates chosen.1 hlt).map Prod.snd
      rw [List.map_cons] at hp1
      exact hp1.trans (hperm.cons _)
    · refine List.Forall₂.cons ?_ hfa
      rw [List.getD_eq_getElem _ _ hlt]
      by_cases hrev : chosen.2 = true
      · rw [if_pos hrev]
        exact Or.inr rfl
      · rw [if_neg hrev]
        exact Or.inl rfl

/-- C10: `_interleave_orientations` emits each input polyline with at
least 2 points exactly once, in original or fully reversed point order;
shorter polylines are dropped, nothing else appears, and the output
length equals the number of kept inputs. -/
theorem C10_theorem (ops : GeomOps) (angle_polylines : List (List Polyline)) :
    OrientedPerm
      (((angle_polylines.enum).flatMap fun ap =>
          ap.2.filterMap fun polyline =>
            if 2 ≤ polyline.length then some (ap.1, polyline) else none).map Prod.snd)
      (interleave_orientations ops angle_polylines) ∧
      (interleave_orientations ops angle_polylines).length =
        ((angle_polylines.enum).flatMap fun ap =>
            ap.2.filterMap fun polyline =>
              if 2 ≤ polyline.length then some (ap.1, polyline) else none).length := by
  have hmain : OrientedPerm
      (((angle_polylines.enum).flatMap fun ap =>
          ap.2.filterMap fun polyline =>
            if 2 ≤ polyline.length then some (ap.1, polyline) else none).map Prod.snd)
      (interleave_orientations ops angle_polylines) := by
    unfold interleave_orientations
    by_cases hc : ((angle_polylines.enum).flatMap fun ap =>
        ap.2.filterMap fun polyline =>
          if 2 ≤ polyline.length then some (ap.1, polyline) else none).isEmpty
    · rw [if_pos hc]
      rw [List.isEmpty_iff] at hc
      rw [hc]
      exact ⟨[], List.Perm.nil, List.Forall₂.nil⟩
    · rw [if_neg hc]
      exact interleave_aux_perm ops _ _ none rfl
  refine ⟨hmain, ?_⟩
  obtain ⟨l, hperm, hfa⟩ := hmain
  calc (interleave_orientations ops angle_polylines).length
      = l.length := (List.Forall₂.length_eq hfa).symm
    _ = _ := by rw [← hperm.length_eq, List.length_map]

/-- Python `min` over a non-empty list returns one of its elements. -/
theorem py_min_by_mem (l : List String) (key : String → ℚ × WithTop ℕ)
    (h : l ≠ []) : py_min_by l key ∈ l := by
  unfold py_min_by
  match l, h with
  | a :: as, _ =>
    dsimp only
    refine foldl_preserve (fun best => best ∈ a :: as) _ as a (by simp) ?_
    intro b x hx hb
    split
    · exact List.mem_cons_of_mem _ hx
    · exact hb

/-- Every key of `dict_insert d k v` is `k` or a key of `d`. -/
theorem dict_insert_key_mem {α : Type} (d : List (String × α)) (k : String)
    (v : α) : ∀ kv ∈ dict_insert d k v, kv.1 = k ∨ kv.1 ∈ d.map Prod.fst := by
  intro kv hkv
  unfold dict_insert at hkv
  split at hkv
  · rw [List.mem_map] at hkv
    obtain ⟨kv0, hkv0, heq⟩ := hkv
    by_cases hk : kv0.1 = k
    · rw [if_pos hk] at heq
      left
      rw [← heq]
    · rw [if_neg hk] at heq
      right
      rw [← heq]
      exact List.mem_map_of_mem _ hkv0
  · rcases List.mem_append.mp hkv with hm | hm
    · right
      exact List.mem_map_of_mem _ hm
    · left
      rw [List.mem_singleton] at hm
      rw [hm]

/-- Keys of the palette RGB dict all come from the palette. -/
theorem palette_rgb_dict_keys :
    ∀ (cs : List String) (S : List String) (d0 d : List (String × (ℕ × ℕ × ℕ))),
      (∀ kv ∈ d0, kv.1 ∈ S) → (∀ c ∈ cs, c ∈ S) →
      List.foldlM (fun d color => (hex_to_rgb color).map fun rgb =>
        dict_insert d color rgb) d0 cs = some d →
      ∀ kv ∈ d, kv.1 ∈ S := by
  intro cs
  induction cs with
  | nil =>
    intro S d0 d h0 _ hfold
    simp only [List.foldlM_nil, Option.pure_def, Option.some_inj] at hfold
    rw [← hfold]
    exact h0
  | cons c cs ih =>
    intro S d0 d h0 hcs hfold
    rw [List.foldlM_cons] at hfold
    cases hrgb : hex_to_rgb c with
    | none =>
      rw [hrgb] at hfold
      simp at hfold
    | some rgb =>
      rw [hrgb] at hfold
      simp only [Option.map_some', Option.some_bind] at hfold
      refine ih S (dict_insert d0 c rgb) d ?_ (fun x hx => hcs x (by simp [hx])) hfold
      intro kv hkv
      rcases dict_insert_key_mem d0 c rgb kv hkv with hm | hm
      · rw [hm]
        exact hcs c (by simp)
      · rw [List.mem_map] at hm
        obtain ⟨kv0, hkv0, he⟩ := hm
        exact he ▸ h0 kv0 hkv0

/-- The grayscale sub-palette is drawn from the RGB dict keys. -/
theorem plan_grayscale_sub (palette_rgb : List (String × (ℕ × ℕ × ℕ))) :
    ∀ c ∈ plan_grayscale palette_rgb, c ∈ palette_rgb.map Prod.fst := by
  intro c hc
  unfold plan_grayscale at hc
  rw [List.mem_map] at hc
  obtain ⟨kv, hkv, he⟩ := hc
  rw [List.mem_filter] at hkv
  obtain ⟨hkv1, _⟩ := hkv
  rw [List.mem_map] at hkv1
  obtain ⟨kv0, hkv0, he0⟩ := hkv1
  rw [← he, ← he0]
  exact List.mem_map_of_mem _ hkv0

/-- `_find_closest_palette_color` always returns a palette entry when
the palette is non-empty and the grayscale candidates come from the
palette. -/
theorem find_closest_mem (ops : GeomOps) (source : ℕ × ℕ × ℕ)
    (palette : List String) (palette_rgb : List (String × (ℕ × ℕ × ℕ)))
    (palette_order : List (String × ℕ)) (grayscale_palette : List String)
    (palette_brightness : List (String × ℚ)) (hpal : palette ≠ [])
    (hgray : ∀ c ∈ grayscale_palette, c ∈ palette) :
    find_closest_palette_color ops source palette palette_rgb palette_order
      grayscale_palette palette_brightness ∈ palette := by
  unfold find_closest_palette_color
  dsimp only
  split
  · next hcond =>
    refine hgray _ (py_min_by_mem _ _ ?_)
    intro hnil
    rw [hnil] at hcond
    simp at hcond
  · exact py_min_by_mem _ _ hpal

/-- The first component of the color-planning fold: every toolpath in
order, with its assigned color set. -/
theorem plan_fold_updated (ops : GeomOps) (palette : List String)
    (palette_rgb : List (String × (ℕ × ℕ × ℕ))) :
    ∀ (ts : List Toolpath)
      (st : List Toolpath × List (String × List Toolpath) × List (String × ℚ)),
      (ts.foldl (plan_step ops palette palette_rgb) st).1 =
        st.1 ++ ts.map fun t =>
          { t with assigned_color := some (plan_assign ops palette palette_rgb t) } := by
  intro ts
  induction ts with
  | nil => intro st; simp
  | cons t ts ih =>
    intro st
    rw [List.foldl_cons, ih]
    show (st.1 ++ [_]) ++ _ = _
    rw [List.append_assoc]
    rfl

/-- C7: with color mode on, a non-empty palette, and every palette
entry parseable as hex RGB, `_plan_color_sequence` succeeds and
deterministically assigns every toolpath exactly the palette color
`plan_assign` computes from its own source color; that color is always
a palette member, and a missing source color is matched as pure black
`(0,0,0)`. -/
theorem C7_theorem (ops : GeomOps) (toolpaths : List Toolpath)
    (config : SlicerConfig) (hmode : config.printer.color_mode = true)
    (hpal : config.printer.available_colors ≠ [])
    (rgbd : List (String × (ℕ × ℕ × ℕ)))
    (hparse : palette_rgb_dict config.printer.available_colors = some rgbd) :
    (∃ plan, plan_color_sequence ops toolpaths config = some (plan,
        toolpaths.map fun t =>
          { t with assigned_color := some (plan_assign ops config.printer.available_colors rgbd t) })) ∧
      (∀ t : Toolpath, plan_assign ops config.printer.available_colors rgbd t ∈
        config.printer.available_colors) ∧
      ∀ t : Toolpath, t.source_color = none →
        plan_assign ops config.printer.available_colors rgbd t =
          plan_assign ops config.printer.available_colors rgbd
            { t with source_color := some (0, 0, 0) } := by
  have hkeys : ∀ kv ∈ rgbd, kv.1 ∈ config.printer.available_colors :=
    palette_rgb_dict_keys config.printer.available_colors
      config.printer.available_colors [] rgbd (by simp) (fun c hc => hc) hparse
  have hmem : ∀ t : Toolpath,
      plan_assign ops config.printer.available_colors rgbd t ∈
        config.printer.available_colors := by
    intro t
    unfold plan_assign
    refine find_closest_mem ops _ _ _ _ _ _ hpal ?_
    intro c hc
    have hc2 := plan_grayscale_sub rgbd c hc
    rw [List.mem_map] at hc2
    obtain ⟨kv, hkv, he⟩ := hc2
    exact he ▸ hkeys kv hkv
  refine ⟨?_, hmem, ?_⟩
  · unfold plan_color_sequence
    have hguard : ¬ (¬ config.printer.color_mode = true ∨
        config.printer.available_colors.isEmpty = true) := by
      push_neg
      exact ⟨hmode, by simpa [List.isEmpty_iff] using hpal⟩
    rw [if_neg hguard]
    dsimp only
    rw [hparse]
    dsimp only
    rw [plan_fold_updated ops config.printer.available_colors rgbd toolpaths ([], [], [])]
    rw [List.nil_append]
    split
    · exact ⟨none, rfl⟩
    · exact ⟨_, rfl⟩
  · intro t ht
    unfold plan_assign
    rw [ht]
    rfl

/-- Witness for C7 at the concrete configuration and one toolpath. -/
theorem C7_witness :
    ∃ plan, plan_color_sequence mops [tp0] cfg0 = some (plan,
      [tp0].map fun t =>
        { t with assigned_color := some (plan_assign mops cfg0.printer.available_colors rgbd0 t) }) :=
  (C7_theorem mops [tp0] cfg0 rfl (by simp [cfg0]) rgbd0 (by rfl)).1


/-- Overwriting an existing key with the in-place update map leaves
lookups of every other key unchanged. -/
theorem find_map_update_ne {α : Type} (d : List (String × α)) (k c : String)
    (v : α) (hne : c ≠ k) :
    List.find? (fun kv => kv.1 = c) (d.map fun kv => if kv.1 = k then (k, v) else kv) =
      List.find? (fun kv => kv.1 = c) d := by
  induction d with
  | nil => rfl
  | cons kv d ih =>
    rw [List.map_cons]
    by_cases hk : kv.1 = k
    · rw [if_pos hk]
      have h1 : ¬ (((k, v) : String × α).1 = c) := fun hc => hne hc.symm
      have h2 : ¬ (kv.1 = c) := by
        intro hc
        exact hne (by rw [← hc, hk])
      rw [List.find?_cons_of_neg _ (by simpa using h1),
        List.find?_cons_of_neg _ (by simpa using h2), ih]
    · rw [if_neg hk]
      by_cases hc : kv.1 = c
      · rw [List.find?_cons_of_pos _ (by simpa using hc),
          List.find?_cons_of_pos _ (by simpa using hc)]
      · rw [List.find?_cons_of_neg _ (by simpa using hc),
          List.find?_cons_of_neg _ (by simpa using hc), ih]

/-- Overwriting an existing key with the in-place update map makes the
lookup of that key return the new value. -/
theorem find_map_update_self {α : Type} (d : List (String × α)) (k : String)
    (v : α) (h : (d.any fun kv => kv.1 = k) = true) :
    List.find? (fun kv => kv.1 = k) (d.map fun kv => if kv.1 = k then (k, v) else kv) =
      some (k, v) := by
  induction d with
  | nil => simp at h
  | cons kv d ih =>
    rw [List.map_cons]
    by_cases hk : kv.1 = k
    · rw [if_pos hk]
      rw [List.find?_cons_of_pos _ (by simp)]
    · rw [if_neg hk]
      rw [List.find?_cons_of_neg _ (by simpa using hk)]
      refine ih ?_
      rcases List.any_eq_true.mp h with ⟨kv2, hkv2, hp⟩
      rcases List.mem_cons.mp hkv2 with he | hm
      · exact absurd (by simpa [he] using hp) hk
      · exact List.any_eq_true.mpr ⟨kv2, hm, hp⟩

/-- `dict_get` succeeds exactly on the stored keys. -/
theorem dict_get_isSome_iff {α : Type} (d : List (String × α)) (c : String) :
    (dict_get d c).isSome = true ↔ c ∈ d.map Prod.fst := by
  unfold dict_get
  constructor
  · intro hs
    cases hf : List.find? (fun kv => kv.1 = c) d with
    | none =>
      rw [hf] at hs
      simp at hs
    | some kv =>
      have hm := List.mem_of_find?_eq_some hf
      have hp := List.find?_some hf
      have he : kv.1 = c := by simpa using hp
      exact he ▸ List.mem_map_of_mem _ hm
  · intro hc
    rw [List.mem_map] at hc
    obtain ⟨kv, hkv, he⟩ := hc
    cases hf : List.find? (fun kv => kv.1 = c) d with
    | none =>
      have := List.find?_eq_none.mp hf kv hkv
      simp [he] at this
    | some kv2 => rfl

/-- A successful `dict_get` means the key passes the `any` test of
`dict_insert`. -/
theorem dict_get_some_any {α : Type} (d : List (String × α)) (k : String)
    (hs : (dict_get d k).isSome = true) : (d.any fun kv => kv.1 = k) = true := by
  rw [List.any_eq_true]
  have hm := (dict_get_isSome_iff d k).mp hs
  rw [List.mem_map] at hm
  obtain ⟨kv, hkv, he⟩ := hm
  exact ⟨kv, hkv, by simp [he]⟩

/-- A failed `dict_get` means the key fails the `any` test of
`dict_insert`. -/
theorem dict_get_none_any {α : Type} (d : List (String × α)) (k : String)
    (hn : dict_get d k = none) : ¬ (d.any fun kv => kv.1 = k) = true := by
  intro h
  rw [List.any_eq_true] at h
  obtain ⟨kv, hkv, hp⟩ := h
  have hm : k ∈ d.map Prod.fst := by
    rw [List.mem_map]
    exact ⟨kv, hkv, by simpa using hp⟩
  have hs := (dict_get_isSome_iff d k).mpr hm
  rw [hn] at hs
  simp at hs

/-- Inserting an existing key keeps the key list unchanged. -/
theorem dict_insert_keys_of_mem {α : Type} (d : List (String × α)) (k : String)
    (v : α) (h : (d.any fun kv => kv.1 = k) = true) :
    (dict_insert d k v).map Prod.fst = d.map Prod.fst := by
  unfold dict_insert
  rw [if_pos h, List.map_map]
  refine List.map_congr_left ?_
  intro kv _
  simp only [Function.comp_apply]
  by_cases hk : kv.1 = k
  · rw [if_pos hk]
    exact hk.symm
  · rw [if_neg hk]

/-- Inserting a fresh key appends it to the key list. -/
theorem dict_insert_keys_of_not_mem {α : Type} (d : List (String × α)) (k : String)
    (v : α) (h : ¬ (d.any fun kv => kv.1 = k) = true) :
    (dict_insert d k v).map Prod.fst = d.map Prod.fst ++ [k] := by
  unfold dict_insert
  rw [if_neg h, List.map_append]
  rfl

/-- Looking up the just-inserted key yields the inserted value. -/
theorem dict_get_insert_self {α : Type} (d : List (String × α)) (k : String)
    (v : α) : dict_get (dict_insert d k v) k = some v := by
  unfold dict_insert
  by_cases h : (d.any fun kv => kv.1 = k) = true
  · rw [if_pos h]
    unfold dict_get
    rw [find_map_update_self d k v h]
    rfl
  · rw [if_neg h]
    unfold dict_get
    rw [List.find?_append]
    have hnone : List.find? (fun kv => kv.1 = k) d = none := by
      rw [List.find?_eq_none]
      intro kv hkv hp
      exact h (List.any_eq_true.mpr ⟨kv, hkv, hp⟩)
    rw [hnone]
    simp

/-- Inserting one key leaves lookups of every other key unchanged. -/
theorem dict_get_insert_ne {α : Type} (d : List (String × α)) (k c : String)
    (v : α) (hne : c ≠ k) : dict_get (dict_insert d k v) c = dict_get d c := by
  unfold dict_insert
  by_cases h : (d.any fun kv => kv.1 = k) = true
  · rw [if_pos h]
    unfold dict_get
    rw [find_map_update_ne d k c v hne]
  · rw [if_neg h]
    unfold dict_get
    rw [List.find?_append]
    cases hf : List.find? (fun kv => kv.1 = c) d with
    | none =>
      have hone : List.find? (fun kv => kv.1 = c) [(k, v)] = none := by
        rw [List.find?_eq_none]
        intro x hx hp
        rw [List.mem_singleton] at hx
        rw [hx] at hp
        have hkc : k = c := by simpa using hp
        exact hne hkc.symm
      rw [hone]
      rfl
    | some kv => rfl

/-- The Python sort key comparison is total. -/
theorem key_le_total (a b : ℚ × WithTop ℕ) : key_le a b ∨ key_le b a := by
  unfold key_le
  rcases lt_trichotomy a.1 b.1 with h | h | h
  · exact Or.inl (Or.inl h)
  · rcases le_total a.2 b.2 with h2 | h2
    · exact Or.inl (Or.inr ⟨h, h2⟩)
    · exact Or.inr (Or.inr ⟨h.symm, h2⟩)
  · exact Or.inr (Or.inl h)

/-- The Python sort key comparison is transitive. -/
theorem key_le_trans (a b c : ℚ × WithTop ℕ) (hab : key_le a b)
    (hbc : key_le b c) : key_le a c := by
  unfold key_le at hab hbc ⊢
  rcases hab with h1 | h1
  · rcases hbc with h2 | h2
    · exact Or.inl (h1.trans h2)
    · exact Or.inl (h2.1 ▸ h1)
  · rcases hbc with h2 | h2
    · exact Or.inl (h1.1 ▸ h2)
    · exact Or.inr ⟨h1.1.trans h2.1, h1.2.trans h2.2⟩

/-- One step of the color-planning fold preserves the bookkeeping
invariants: group keys are exactly the colors assigned so far, the key
list has no duplicates, and the usage dict holds the per-color summed
toolpath lengths. -/
theorem plan_step_invariant (ops : GeomOps) (palette : List String)
    (palette_rgb : List (String × (ℕ × ℕ × ℕ)))
    (updated : List Toolpath) (color_groups : List (String × List Toolpath))
    (usage : List (String × ℚ)) (t : Toolpath)
    (h1 : ∀ c, c ∈ color_groups.map Prod.fst ↔
      ∃ x ∈ updated, x.assigned_color = some c)
    (h2 : (color_groups.map Prod.fst).Nodup)
    (h3 : ∀ c, (dict_get usage c).getD 0 =
      ((updated.filter fun x => x.assigned_color = some c).map
        fun x => toolpath_length ops x).sum) :
    (∀ c, c ∈ (plan_step ops palette palette_rgb
        (updated, color_groups, usage) t).2.1.map Prod.fst ↔
      ∃ x ∈ (plan_step ops palette palette_rgb
        (updated, color_groups, usage) t).1, x.assigned_color = some c) ∧
    ((plan_step ops palette palette_rgb
        (updated, color_groups, usage) t).2.1.map Prod.fst).Nodup ∧
    (∀ c, (dict_get (plan_step ops palette palette_rgb
        (updated, color_groups, usage) t).2.2 c).getD 0 =
      (((plan_step ops palette palette_rgb
        (updated, color_groups, usage) t).1.filter
          fun x => x.assigned_color = some c).map
            fun x => toolpath_length ops x).sum) := by
  unfold plan_step
  dsimp only
  refine ⟨?_, ?_, ?_⟩
  · intro c
    cases hg : dict_get color_groups (plan_assign ops palette palette_rgb t) with
    | some group =>
      have hany := dict_get_some_any color_groups
        (plan_assign ops palette palette_rgb t) (by rw [hg]; rfl)
      rw [dict_insert_keys_of_mem _ _ _ hany]
      have hbmem : plan_assign ops palette palette_rgb t ∈
          color_groups.map Prod.fst :=
        (dict_get_isSome_iff _ _).mp (by rw [hg]; rfl)
      constructor
      · intro hc
        obtain ⟨x, hx, ha⟩ := (h1 c).mp hc
        exact ⟨x, List.mem_append_left _ hx, ha⟩
      · rintro ⟨x, hx, ha⟩
        rcases List.mem_append.mp hx with hx | hx
        · exact (h1 c).mpr ⟨x, hx, ha⟩
        · rw [List.mem_singleton] at hx
          rw [hx] at ha
          have hcb : plan_assign ops palette palette_rgb t = c := by
            simpa using ha
          exact hcb ▸ hbmem
    | none =>
      rw [List.map_append]
      constructor
      · intro hc
        rcases List.mem_append.mp hc with hc | hc
        · obtain ⟨x, hx, ha⟩ := (h1 c).mp hc
          exact ⟨x, List.mem_append_left _ hx, ha⟩
        · simp only [List.map_cons, List.map_nil, List.mem_singleton] at hc
          refine ⟨_, List.mem_append_right _ (List.mem_singleton_self _), ?_⟩
          rw [hc]
      · rintro ⟨x, hx, ha⟩
        rcases List.mem_append.mp hx with hx | hx
        · exact List.mem_append_left _ ((h1 c).mpr ⟨x, hx, ha⟩)
        · rw [List.mem_singleton] at hx
          rw [hx] at ha
          have hcb : plan_assign ops palette palette_rgb t = c := by
            simpa using ha
          exact List.mem_append_right _ (by simp [hcb])
  · cases hg : dict_get color_groups (plan_assign ops palette palette_rgb t) with
    | some group =>
      have hany := dict_get_some_any color_groups
        (plan_assign ops palette palette_rgb t) (by rw [hg]; rfl)
      rw [dict_insert_keys_of_mem _ _ _ hany]
      exact h2
    | none =>
      rw [List.map_append, List.nodup_append]
      refine ⟨h2, by simp, ?_⟩
      intro a ha hb
      simp only [List.map_cons, List.map_nil, List.mem_singleton] at hb
      have hs := (dict_get_isSome_iff color_groups
        (plan_assign ops palette palette_rgb t)).mpr (hb ▸ ha)
      rw [hg] at hs
      simp at hs
  · intro c
    by_cases hc : c = plan_assign ops palette palette_rgb t
    · rw [hc, dict_get_insert_self, List.filter_append, List.map_append,
        List.sum_append, h3]
      simp
    · rw [dict_get_insert_ne _ _ _ _ hc, List.filter_append, List.map_append,
        List.sum_append, h3 c]
      have hni : ¬ (plan_assign ops palette palette_rgb t = c) :=
        fun he => hc he.symm
      simp [hni]

/-- The color-planning fold maintains the bookkeeping invariants from
any state that satisfies them. -/
theorem plan_fold_invariant (ops : GeomOps) (palette : List String)
    (palette_rgb : List (String × (ℕ × ℕ × ℕ))) :
    ∀ (ts : List Toolpath)
      (st : List Toolpath × List (String × List Toolpath) × List (String × ℚ)),
      (∀ c, c ∈ st.2.1.map Prod.fst ↔ ∃ x ∈ st.1, x.assigned_color = some c) →
      (st.2.1.map Prod.fst).Nodup →
      (∀ c, (dict_get st.2.2 c).getD 0 =
        ((st.1.filter fun x => x.assigned_color = some c).map
          fun x => toolpath_length ops x).sum) →
      (∀ c, c ∈ (ts.foldl (plan_step ops palette palette_rgb) st).2.1.map Prod.fst ↔
        ∃ x ∈ (ts.foldl (plan_step ops palette palette_rgb) st).1,
          x.assigned_color = some c) ∧
      ((ts.foldl (plan_step ops palette palette_rgb) st).2.1.map Prod.fst).Nodup ∧
      (∀ c, (dict_get (ts.foldl (plan_step ops palette palette_rgb) st).2.2 c).getD 0 =
        (((ts.foldl (plan_step ops palette palette_rgb) st).1.filter
          fun x => x.assigned_color = some c).map
            fun x => toolpath_length ops x).sum) := by
  intro ts
  induction ts with
  | nil =>
    intro st h1 h2 h3
    exact ⟨h1, h2, h3⟩
  | cons t ts ih =>
    intro st h1 h2 h3
    obtain ⟨updated, color_groups, usage⟩ := st
    rw [List.foldl_cons]
    obtain ⟨g1, g2, g3⟩ := plan_step_invariant ops palette palette_rgb
      updated color_groups usage t h1 h2 h3
    exact ih (plan_step ops palette palette_rgb (updated, color_groups, usage) t)
      g1 g2 g3

/-- `py_sorted` sorts by the Python comparison key. -/
theorem py_sorted_sorted (l : List String) (key : String → ℚ × WithTop ℕ) :
    List.Sorted (fun a b => key_le (key a) (key b)) (py_sorted l key) :=
  @List.sorted_insertionSort String (fun a b => key_le (key a) (key b))
    (fun _ _ => key_le_dec _ _) ⟨fun _ _ => key_le_total _ _⟩
    ⟨fun _ _ _ => key_le_trans _ _ _⟩ l

set_option maxHeartbeats 1600000 in
/-- C8: with color mode on, a non-empty parseable palette and at least
one toolpath, `_plan_color_sequence` returns a plan whose
`ordered_colors` has no duplicates and is exactly the set of colors
assigned to the (updated) toolpaths; every such color is a palette
entry; the list is sorted ascending by the Python key (recorded usage,
palette-order index with `math.inf` default); and the recorded usage of
every color equals the summed Euclidean lengths of the toolpaths
assigned that color.  The plan is a pure function of the toolpath list
and configuration, so the ordering has no hidden nondeterminism. -/
theorem C8_theorem (ops : GeomOps) (toolpaths : List Toolpath)
    (config : SlicerConfig) (hmode : config.printer.color_mode = true)
    (hpal : config.printer.available_colors ≠ [])
    (rgbd : List (String × (ℕ × ℕ × ℕ)))
    (hparse : palette_rgb_dict config.printer.available_colors = some rgbd)
    (hne : toolpaths ≠ []) :
    ∃ (plan : ColorPlan) (updated : List Toolpath),
      plan_color_sequence ops toolpaths config = some (some plan, updated) ∧
      plan.ordered_colors.Nodup ∧
      (∀ c, c ∈ plan.ordered_colors ↔ ∃ x ∈ updated, x.assigned_color = some c) ∧
      (∀ c ∈ plan.ordered_colors, c ∈ config.printer.available_colors) ∧
      List.Sorted (fun a b => key_le
        ((dict_get plan.usage_by_color a).getD 0,
          order_key (palette_order_dict config.printer.available_colors) a)
        ((dict_get plan.usage_by_color b).getD 0,
          order_key (palette_order_dict config.printer.available_colors) b))
        plan.ordered_colors ∧
      (∀ c, (dict_get plan.usage_by_color c).getD 0 =
        ((updated.filter fun x => x.assigned_color = some c).map
          fun x => toolpath_length ops x).sum) := by
  have hkeys : ∀ kv ∈ rgbd, kv.1 ∈ config.printer.available_colors :=
    palette_rgb_dict_keys config.printer.available_colors
      config.printer.available_colors [] rgbd (by simp) (fun c hc => hc) hparse
  have hmemassign : ∀ x : Toolpath,
      plan_assign ops config.printer.available_colors rgbd x ∈
        config.printer.available_colors := by
    intro x
    unfold plan_assign
    refine find_closest_mem ops _ _ _ _ _ _ hpal ?_
    intro c hc
    have hc2 := plan_grayscale_sub rgbd c hc
    rw [List.mem_map] at hc2
    obtain ⟨kv, hkv, he⟩ := hc2
    exact he ▸ hkeys kv hkv
  have hguard : ¬ (¬ config.printer.color_mode = true ∨
      config.printer.available_colors.isEmpty = true) := by
    push_neg
    exact ⟨hmode, by simpa [List.isEmpty_iff] using hpal⟩
  have hupd := plan_fold_updated ops config.printer.available_colors rgbd
    toolpaths ([], [], [])
  rw [List.nil_append] at hupd
  obtain ⟨h1, h2, h3⟩ := plan_fold_invariant ops config.printer.available_colors
    rgbd toolpaths ([], [], []) (by simp) (by simp) (by intro c; simp [dict_get])
  obtain ⟨t0, ts0, ht0⟩ := List.exists_cons_of_ne_nil hne
  have hx0 : ∃ x ∈ (toolpaths.foldl
      (plan_step ops config.printer.available_colors rgbd) ([], [], [])).1,
      x.assigned_color = some (plan_assign ops config.printer.available_colors rgbd t0) := by
    rw [hupd, ht0, List.map_cons]
    exact ⟨_, List.mem_cons_self _ _, rfl⟩
  have hkey0 := (h1 _).mpr hx0
  have hgne : ¬ ((toolpaths.foldl
      (plan_step ops config.printer.available_colors rgbd)
      ([], [], [])).2.1.isEmpty = true) := by
    intro hemp
    rw [List.isEmpty_iff] at hemp
    rw [hemp] at hkey0
    simp at hkey0
  unfold plan_color_sequence
  rw [if_neg hguard]
  dsimp only
  rw [hparse]
  dsimp only
  rw [if_neg hgne]
  refine ⟨_, _, rfl, ?_, ?_, ?_, ?_, ?_⟩
  · dsimp only
    simp only [py_sorted]
    exact (List.perm_insertionSort _ _).nodup_iff.mpr h2
  · dsimp only
    simp only [py_sorted]
    intro c
    exact (List.perm_insertionSort _ _).mem_iff.trans (h1 c)
  · dsimp only
    simp only [py_sorted]
    intro c hc
    have hck := (List.perm_insertionSort _ _).mem_iff.mp hc
    obtain ⟨x, hx, ha⟩ := (h1 c).mp hck
    rw [hupd] at hx
    rw [List.mem_map] at hx
    obtain ⟨t', ht', he⟩ := hx
    rw [← he] at ha
    have hcp : plan_assign ops config.printer.available_colors rgbd t' = c := by
      simpa using ha
    exact hcp ▸ hmemassign t'
  · dsimp only
    exact py_sorted_sorted _ _
  · dsimp only
    exact h3

/-- Witness for C8 at the concrete configuration and one toolpath. -/
theorem C8_witness :
    ∃ (plan : ColorPlan) (updated : List Toolpath),
      plan_color_sequence mops [tp0] cfg0 = some (some plan, updated) ∧
      plan.ordered_colors.Nodup ∧
      (∀ c, c ∈ plan.ordered_colors ↔ ∃ x ∈ updated, x.assigned_color = some c) ∧
      (∀ c ∈ plan.ordered_colors, c ∈ cfg0.printer.available_colors) ∧
      List.Sorted (fun a b => key_le
        ((dict_get plan.usage_by_color a).getD 0,
          order_key (palette_order_dict cfg0.printer.available_colors) a)
        ((dict_get plan.usage_by_color b).getD 0,
          order_key (palette_order_dict cfg0.printer.available_colors) b))
        plan.ordered_colors ∧
      (∀ c, (dict_get plan.usage_by_color c).getD 0 =
        ((updated.filter fun x => x.assigned_color = some c).map
          fun x => toolpath_length mops x).sum) :=
  C8_theorem mops [tp0] cfg0 rfl (by simp [cfg0]) rgbd0 (by rfl) (by simp)

/-- The only error `fit_shapes_to_bed` raises is the degenerate-bounds
one. -/
theorem fit_shapes_to_bed_error (ops : GeomOps) (shapes : List ShapeGeometry)
    (printer : PrinterConfig) (e : String)
    (h : fit_shapes_to_bed ops shapes printer = Except.error e) :
    e = "SVG has zero width or height after parsing; cannot scale." := by
  unfold fit_shapes_to_bed at h
  cases shapes with
  | nil => simp at h
  | cons s ss =>
    dsimp only at h
    split at h
    · exact (Except.error.inj h).symm
    · simp at h

/-- C9 (amended): with bed fitting disabled, the function errors exactly
on empty input (first message) or an empty generated toolpath list
(second message) and otherwise returns the toolpaths with scale 1; and
for either fitting mode, every raised error is one of the two stated
messages or the bed-fitting degenerate-bounds message. -/
theorem C9_theorem (ops : GeomOpsX) (shapes : List ShapeGeometry)
    (config : SlicerConfig) :
    (generate_toolpaths_for_shapes ops shapes config false =
      if shapes.isEmpty then
        Except.error "No drawable shapes with fills were found in the SVG."
      else if build_toolpaths ops shapes config = [] then
        Except.error "No toolpaths were generated from the SVG."
      else Except.ok (build_toolpaths ops shapes config, 1)) ∧
    (∀ (b : Bool) (e : String),
      generate_toolpaths_for_shapes ops shapes config b = Except.error e →
      e = "No drawable shapes with fills were found in the SVG." ∨
      e = "No toolpaths were generated from the SVG." ∨
      e = "SVG has zero width or height after parsing; cannot scale.") := by
  have hmain : generate_toolpaths_for_shapes ops shapes config false =
      if shapes.isEmpty then
        Except.error "No drawable shapes with fills were found in the SVG."
      else if build_toolpaths ops shapes config = [] then
        Except.error "No toolpaths were generated from the SVG."
      else Except.ok (build_toolpaths ops shapes config, 1) := by
    cases shapes with
    | nil => rfl
    | cons s ss =>
      rw [if_neg (by simp)]
      unfold generate_toolpaths_for_shapes
      rw [if_neg Bool.false_ne_true]
      dsimp only
      by_cases h : build_toolpaths ops (s :: ss) config = []
      · have hL : (build_toolpaths ops (s :: ss) config).isEmpty = true := by
          rw [h]
          rfl
        rw [if_pos hL, if_pos h]
      · have hL : ¬ ((build_toolpaths ops (s :: ss) config).isEmpty = true) := by
          simpa [List.isEmpty_iff] using h
        rw [if_neg hL, if_neg h]
  refine ⟨hmain, ?_⟩
  intro b e he
  cases b with
  | false =>
    rw [hmain] at he
    split at he
    · exact Or.inl (Except.error.inj he).symm
    · split at he
      · exact Or.inr (Or.inl (Except.error.inj he).symm)
      · simp at he
  | true =>
    cases shapes with
    | nil =>
      unfold generate_toolpaths_for_shapes at he
      exact Or.inl (Except.error.inj he).symm
    | cons s ss =>
      unfold generate_toolpaths_for_shapes at he
      have htt : (true : Bool) = true := rfl
      rw [if_pos htt] at he
      cases hf : fit_shapes_to_bed ops.toGeomOps (s :: ss) config.printer with
      | error e2 =>
        rw [hf] at he
        dsimp only at he
        exact Or.inr (Or.inr ((Except.error.inj he) ▸
          fit_shapes_to_bed_error ops.toGeomOps (s :: ss) config.printer e2 hf))
      | ok fitted =>
        rw [hf] at he
        dsimp only at he
        split at he
        · exact Or.inr (Or.inl (Except.error.inj he).symm)
        · simp at he

/-- C9 counterexample: with bed fitting enabled (the caller default), a
non-empty shape list with degenerate bounds makes
`generate_toolpaths_for_shapes` fail with the bed-fitting error, a third
failure mode distinct from the two messages the claim allows. -/
theorem C9_counterexample :
    ([shape0] : List ShapeGeometry) ≠ [] ∧
    generate_toolpaths_for_shapes mopsX [shape0] cfg0 true =
      Except.error "SVG has zero width or height after parsing; cannot scale." ∧
    ("SVG has zero width or height after parsing; cannot scale." ≠
      "No drawable shapes with fills were found in the SVG." ∧
      "SVG has zero width or height after parsing; cannot scale." ≠
      "No toolpaths were generated from the SVG.") := by
  have hfit : fit_shapes_to_bed mopsX.toGeomOps [shape0] cfg0.printer =
      Except.error "SVG has zero width or height after parsing; cannot scale." := by
    unfold fit_shapes_to_bed
    dsimp only [List.foldl]
    split
    · rfl
    · next hcond =>
      exfalso
      apply hcond
      left
      norm_num [mopsX, mops, shape0, model_bounds, verticalSegment, geometry_coords]
  refine ⟨by simp, ?_, by decide, by decide⟩
  unfold generate_toolpaths_for_shapes
  rw [hfit]
  rfl
